import Mathlib

/-!
Verification of the backup-synchronization engine of the `feels` habit
tracker: the checksum function, the backup codec, the record-level merge
algorithm, the conflict-resolution strategies, manual export/import, and
the `performSync` reconciliation state machine, embedded shallowly from
the TypeScript source (`sync.ts`, `db.ts`, `driveApi.ts`).

Modelling conventions:
* JavaScript `Date` values are modelled by `Dt`: either an in-memory
  date (`Dt.mem`, milliseconds since the Unix epoch, as stored by the
  local database), a wire-format ISO-8601 string (`Dt.wire`, as produced
  by `JSON.parse` of a downloaded backup), or an invalid date (`Dt.nan`).
* JavaScript numbers that the program keeps integral are modelled by
  `Nat`/`Int`; the 32-bit wrap-around in the checksum hash is made
  explicit with `toInt32`.
* The built-in `Date.prototype.toISOString` is modelled by `isoString`
  (Howard Hinnant's civil-from-days algorithm, zero-padded fields), and
  `new Date(string)` on canonical ISO strings by `parseIso`.
* Effects (the Dexie store, the Drive transport, settings writes) are
  modelled by explicit state threading over a `World` record; each
  fallible external step has a failure-injection flag, and a thrown
  exception is represented by returning an `error` result together with
  the world as mutated so far, exactly as the `try`/`catch` in
  `performSync` observes it.
-/

namespace Feels

/-! ## Decimal / hexadecimal printing of numbers (JS `String(n)`, `n.toString(16)`) -/

/-- Digits of `n` in base `b` (most significant first), fuel-driven so that it
reduces in the kernel. `fuel ≥ n` is always enough. -/
def natDigitsAux (b : Nat) : Nat → Nat → List Char → List Char
  | 0, _, acc => acc
  | fuel + 1, n, acc =>
    let d := Nat.digitChar (n % b)
    if n < b then d :: acc else natDigitsAux b fuel (n / b) (d :: acc)

/-- `n` printed in base `b` (used with `b = 10` for `JSON.stringify` of a
number and `b = 16` for `Number.prototype.toString(16)`; `Nat.digitChar`
produces the lowercase hex digits JS produces). -/
def natStrBase (b n : Nat) : String :=
  ⟨natDigitsAux b (n + 1) n []⟩

/-- JS decimal printing of a non-negative integer. -/
def natToStr (n : Nat) : String := natStrBase 10 n

/-- JS decimal printing of an integer (sign followed by digits). -/
def intToStr (i : Int) : String :=
  if i < 0 then "-" ++ natToStr i.natAbs else natToStr i.natAbs

/-! ## The checksum hash core (`generateChecksum`'s loop, sync.ts lines 23-28)

JS `hash = (hash << 5) - hash + char; hash = hash & hash` keeps `hash` a
signed 32-bit integer: `<< 5` wraps its result to 32 bits, and `& hash`
truncates the double-precision sum back to 32 bits. -/

/-- Wrap an integer into the signed 32-bit range, as JS `ToInt32`. -/
def toInt32 (n : Int) : Int := (n + 2 ^ 31) % 2 ^ 32 - 2 ^ 31

/-- One step of the checksum loop:
`hash = (hash << 5) - hash + char` followed by `hash = hash & hash`. -/
def hashStep (h : Int) (c : Nat) : Int :=
  toInt32 (toInt32 (h * 32) - h + c)

/-- The full hash of a string: fold `hashStep` over the UTF-16 code units
(`charCodeAt`; identical to the code points for the BMP characters this
program produces), then `Math.abs(hash).toString(16)`. -/
def hashString (s : String) : String :=
  natStrBase 16 (((s.data.map Char.toNat).foldl hashStep 0).natAbs)

/-! ## Calendar arithmetic: `Date.prototype.toISOString` and ISO parsing

`civilFromDays`/`daysFromCivil` are the standard civil-calendar
conversions (Howard Hinnant's algorithms), specialised to days ≥ 0,
i.e. dates from 1970-01-01 on, which is all a `Nat` epoch-millisecond
timestamp can denote. -/

def msPerDay : Nat := 86400000

/-- Day-of-era at which year-of-era `y` starts:
365 days per year plus the era's leap days so far. -/
def startOf (y : Nat) : Nat := 365 * y + y / 4 - y / 100

/-- The year-of-era containing day-of-era `doe`. -/
def yoeOf (doe : Nat) : Nat :=
  (doe - doe / 1460 + doe / 36524 - doe / 146096) / 365

/-- Convert a count of days since 1970-01-01 to `(year, month, day)`. -/
def civilFromDays (z : Nat) : Nat × Nat × Nat :=
  let era := (z + 719468) / 146097
  let doe := (z + 719468) % 146097
  let yoe := yoeOf doe
  let doy := doe - startOf yoe
  let mp := (5 * doy + 2) / 153
  let d := doy - (153 * mp + 2) / 5 + 1
  let m := if mp < 10 then mp + 3 else mp - 9
  (if m ≤ 2 then yoe + era * 400 + 1 else yoe + era * 400, m, d)

/-- Convert `(year, month, day)` (year ≥ 1970) to days since 1970-01-01. -/
def daysFromCivil (y m d : Nat) : Nat :=
  let y' := if m ≤ 2 then y - 1 else y
  let era := y' / 400
  let yoe := y' % 400
  let doy := (153 * (if 2 < m then m - 3 else m + 9) + 2) / 5 + d - 1
  era * 146097 + (startOf yoe + doy) - 719468

/-- Two zero-padded decimal digits (`String(n).padStart(2, "0")` for n ≤ 99). -/
def pad2l (n : Nat) : List Char :=
  [Nat.digitChar (n / 10 % 10), Nat.digitChar (n % 10)]

/-- Three zero-padded decimal digits. -/
def pad3l (n : Nat) : List Char :=
  [Nat.digitChar (n / 100 % 10), Nat.digitChar (n / 10 % 10), Nat.digitChar (n % 10)]

/-- Four zero-padded decimal digits (the year field of `toISOString`). -/
def pad4l (n : Nat) : List Char :=
  [Nat.digitChar (n / 1000 % 10), Nat.digitChar (n / 100 % 10),
   Nat.digitChar (n / 10 % 10), Nat.digitChar (n % 10)]

/-- The characters of `new Date(ms).toISOString()`:
`YYYY-MM-DDTHH:MM:SS.mmmZ`. -/
def isoChars (ms : Nat) : List Char :=
  let c := civilFromDays (ms / msPerDay)
  let r := ms % msPerDay
  pad4l c.1 ++ ['-'] ++ pad2l c.2.1 ++ ['-'] ++ pad2l c.2.2 ++ ['T'] ++
    pad2l (r / 3600000) ++ [':'] ++ pad2l (r % 3600000 / 60000) ++ [':'] ++
    pad2l (r % 60000 / 1000) ++ ['.'] ++ pad3l (r % 1000) ++ ['Z']

/-- `new Date(ms).toISOString()`. -/
def isoString (ms : Nat) : String := ⟨isoChars ms⟩

/-- Numeric value of a decimal digit character (guarded by `isDigit` at
every use site). -/
def dv (c : Char) : Nat := c.toNat - 48

/-- `new Date(s).getTime()` for a canonical UTC ISO-8601 string
(`YYYY-MM-DDTHH:MM:SS.mmmZ`); `none` models an invalid date (NaN time
value). Dates before 1970 are not representable in this model's `Nat`
timestamps and also map to `none`. -/
def parseIsoChars (cs : List Char) : Option Nat :=
  match cs with
  | [y1, y2, y3, y4, a1, m1, m2, a2, d1, d2, a3, h1, h2, a4, n1, n2, a5, e1, e2, a6, u1, u2, u3, a7] =>
    if a1 = '-' ∧ a2 = '-' ∧ a3 = 'T' ∧ a4 = ':' ∧ a5 = ':' ∧ a6 = '.' ∧ a7 = 'Z' ∧
        y1.isDigit ∧ y2.isDigit ∧ y3.isDigit ∧ y4.isDigit ∧ m1.isDigit ∧ m2.isDigit ∧
        d1.isDigit ∧ d2.isDigit ∧ h1.isDigit ∧ h2.isDigit ∧ n1.isDigit ∧ n2.isDigit ∧
        e1.isDigit ∧ e2.isDigit ∧ u1.isDigit ∧ u2.isDigit ∧ u3.isDigit then
      let y := dv y1 * 1000 + dv y2 * 100 + dv y3 * 10 + dv y4
      let mo := dv m1 * 10 + dv m2
      let d := dv d1 * 10 + dv d2
      let h := dv h1 * 10 + dv h2
      let mi := dv n1 * 10 + dv n2
      let se := dv e1 * 10 + dv e2
      let u := dv u1 * 100 + dv u2 * 10 + dv u3
      if 1970 ≤ y ∧ 1 ≤ mo ∧ mo ≤ 12 ∧ 1 ≤ d ∧ d ≤ 31 ∧ h ≤ 23 ∧ mi ≤ 59 ∧ se ≤ 59 then
        some (daysFromCivil y mo d * msPerDay + h * 3600000 + mi * 60000 + se * 1000 + u)
      else none
    else none
  | _ => none

/-- `new Date(s).getTime()` on a string (see `parseIsoChars`). -/
def parseIso (s : String) : Option Nat := parseIsoChars s.data

/-! ## JavaScript date values -/

/-- A JS runtime value sitting in a date-typed field. -/
inductive Dt where
  /-- A valid `Date` object with the given epoch-millisecond time value. -/
  | mem (ms : Nat)
  /-- An ISO-8601 string (what `JSON.parse` leaves in a downloaded backup). -/
  | wire (s : String)
  /-- An invalid `Date` (NaN time value). -/
  | nan
deriving DecidableEq

/-- `new Date(x).getTime()`: the time value of a date-field value,
`none` for NaN. -/
def Dt.time : Dt → Option Nat
  | .mem ms => some ms
  | .wire s => parseIso s
  | .nan => none

/-- `new Date(a) > new Date(b)` (false whenever either side is NaN). -/
def dtAfter (a b : Dt) : Bool :=
  match a.time, b.time with
  | some x, some y => decide (y < x)
  | _, _ => false

/-- Timestamps below this bound (midnight, year 10000) round-trip through
`isoString`/`parseIso`; the four-digit year field is exact below it. -/
def isoBound : Nat := 2932897 * 86400000


/-! ## Data model records (src/types.ts)

`id` is `Option Nat`: Dexie assigns auto-increment keys starting at 1, and
a never-persisted record has `id` undefined. -/

structure Stat where
  id : Option Nat
  name : String
  color : String
  order : Int
  createdAt : Dt
  updatedAt : Dt
deriving DecidableEq

structure Entry where
  id : Option Nat
  statId : Nat
  value : Int
  date : String
  createdAt : Dt
  updatedAt : Dt
deriving DecidableEq

/-! ## JSON values

`JSON.parse` of `JSON.stringify` is the identity on JSON values, so the
wire format is modelled at the value level by `Json`; the only text this
program inspects character-by-character is the checksum input, which is
modelled separately as a string (`checksumText`). -/

inductive Json where
  | null
  | num (n : Int)
  | str (s : String)
  | arr (xs : List Json)
  | obj (fields : List (String × Json))

/-- Look a field up in a JSON object's field list (first occurrence). -/
def jGet (fs : List (String × Json)) (k : String) : Option Json :=
  match fs with
  | [] => none
  | (k', v) :: rest => if k' = k then some v else jGet rest k

/-- `x.k` on a parsed JSON value (`undefined` = `none` when `x` is not an
object or lacks the field). -/
def jField : Json → String → Option Json
  | .obj fs, k => jGet fs k
  | _, _ => none

/-! ## The JSON text of the checksum input (sync.ts `generateChecksum`) -/

/-- How `JSON.stringify` escapes one character inside a string literal. -/
def escChar (c : Char) : List Char :=
  if c = '"' then ['\\', '"']
  else if c = '\\' then ['\\', '\\']
  else if c = '\x08' then ['\\', 'b']
  else if c = '\t' then ['\\', 't']
  else if c = '\n' then ['\\', 'n']
  else if c = '\x0c' then ['\\', 'f']
  else if c = '\r' then ['\\', 'r']
  else if c.toNat < 32 then
    ['\\', 'u', '0', '0', Nat.digitChar (c.toNat / 16), Nat.digitChar (c.toNat % 16)]
  else [c]

/-- `JSON.stringify` of a string value. -/
def jsonQuote (s : String) : String :=
  ⟨'"' :: (s.data.map escChar).flatten ++ ['"']⟩

/-- `JSON.stringify` of a date-typed field value: a `Date` serializes via
`toISOString`, a string as itself, an invalid `Date` as `null`. -/
def dtJson : Dt → String
  | .mem ms => ⟨'"' :: isoChars ms ++ ['"']⟩
  | .wire s => jsonQuote s
  | .nan => "null"

/-- The per-stat projection the checksum depends on: `(id, name, updatedAt)`. -/
def statProj (s : Stat) : Option Nat × String × Dt := (s.id, s.name, s.updatedAt)

/-- The per-entry projection the checksum depends on: `(id, value, updatedAt)`. -/
def entryProj (e : Entry) : Option Nat × Int × Dt := (e.id, e.value, e.updatedAt)

/-- `JSON.stringify({id: ..., name: ..., updatedAt: ...})`; a JS object
omits a key holding `undefined`. -/
def statProjJsonP (p : Option Nat × String × Dt) : String :=
  (match p.1 with
   | some i => "\x7b\"id\":" ++ natToStr i ++ ",\"name\":"
   | none => "\x7b\"name\":")
  ++ jsonQuote p.2.1 ++ ",\"updatedAt\":" ++ dtJson p.2.2 ++ "\x7d"

/-- `JSON.stringify({id: ..., value: ..., updatedAt: ...})`. -/
def entryProjJsonP (p : Option Nat × Int × Dt) : String :=
  (match p.1 with
   | some i => "\x7b\"id\":" ++ natToStr i ++ ",\"value\":"
   | none => "\x7b\"value\":")
  ++ intToStr p.2.1 ++ ",\"updatedAt\":" ++ dtJson p.2.2 ++ "\x7d"

/-- Array elements joined by commas, as in `JSON.stringify` of an array. -/
def joinComma : List String → String
  | [] => ""
  | [s] => s
  | s :: rest => s ++ "," ++ joinComma rest

/-- The string `generateChecksum` hashes:
`JSON.stringify({stats: data.stats.map(...), entries: data.entries.map(...)})`. -/
def checksumText (stats : List Stat) (entries : List Entry) : String :=
  "\x7b\"stats\":[" ++ joinComma (stats.map (fun s => statProjJsonP (statProj s))) ++
    "],\"entries\":[" ++ joinComma (entries.map (fun e => entryProjJsonP (entryProj e))) ++ "]\x7d"

/-- `generateChecksum` (sync.ts lines 10-30). -/
def generateChecksum (stats : List Stat) (entries : List Entry) : String :=
  hashString (checksumText stats entries)

/-! ## Backup envelope (google/types.ts `BackupFile`) -/

structure BackupMetadata where
  version : Nat
  exportedAt : String
  appVersion : String
  entryCount : Nat
  statCount : Nat
  checksum : String
deriving DecidableEq

structure BackupData where
  stats : List Stat
  entries : List Entry
deriving DecidableEq

structure BackupFile where
  metadata : BackupMetadata
  data : BackupData
deriving DecidableEq

/-- `buildBackupFile` (sync.ts lines 32-47), with the local store's record
lists and `new Date().toISOString()` passed explicitly. -/
def buildBackup (stats : List Stat) (entries : List Entry) (nowIso : String) : BackupFile :=
  { metadata :=
      { version := 1
        exportedAt := nowIso
        appVersion := "1.0.0"
        entryCount := entries.length
        statCount := stats.length
        checksum := generateChecksum stats entries }
    data := { stats := stats, entries := entries } }

/-! ## JSON encoding of records and backups (`JSON.stringify` structure) -/

/-- A date-typed field value as a JSON value. -/
def dtToJson : Dt → Json
  | .mem ms => .str (isoString ms)
  | .wire s => .str s
  | .nan => .null

/-- A stored stat as the JSON value `JSON.stringify` produces for it
(`undefined` id omitted). -/
def statToJson (s : Stat) : Json :=
  .obj ((match s.id with
         | some i => [("id", Json.num (Int.ofNat i))]
         | none => []) ++
    [("name", .str s.name), ("color", .str s.color), ("order", .num s.order),
     ("createdAt", dtToJson s.createdAt), ("updatedAt", dtToJson s.updatedAt)])

/-- A stored entry as a JSON value. -/
def entryToJson (e : Entry) : Json :=
  .obj ((match e.id with
         | some i => [("id", Json.num (Int.ofNat i))]
         | none => []) ++
    [("statId", .num (Int.ofNat e.statId)), ("value", .num e.value), ("date", .str e.date),
     ("createdAt", dtToJson e.createdAt), ("updatedAt", dtToJson e.updatedAt)])

/-- The backup metadata as a JSON value. -/
def metaToJson (m : BackupMetadata) : Json :=
  .obj [("version", .num (Int.ofNat m.version)), ("exportedAt", .str m.exportedAt),
    ("appVersion", .str m.appVersion), ("entryCount", .num (Int.ofNat m.entryCount)),
    ("statCount", .num (Int.ofNat m.statCount)), ("checksum", .str m.checksum)]

/-- `JSON.stringify(backupFile)`: the envelope a sync upload writes
(driveApi.ts `uploadBackup` body). -/
def backupToJson (b : BackupFile) : Json :=
  .obj [("metadata", metaToJson b.metadata),
    ("data", .obj [("stats", .arr (b.data.stats.map statToJson)),
      ("entries", .arr (b.data.entries.map entryToJson))])]

/-- `JSON.stringify({stats, entries, exportedAt})`: the flat object built
both by manual `exportData` (db.ts lines 153-157) and by `resolveConflict`
when it feeds a dataset to `importData`. -/
def flatExport (stats : List Stat) (entries : List Entry) (exportedAt : String) : Json :=
  .obj [("stats", .arr (stats.map statToJson)),
    ("entries", .arr (entries.map entryToJson)),
    ("exportedAt", .str exportedAt)]

/-! ## Reading a downloaded backup back (driveApi.ts `downloadBackup`)

`response.json()` only parses; the fields are then read according to the
`BackupFile` shape. Date fields come back as the ISO strings
`JSON.stringify` wrote (`Dt.wire`); nothing re-hydrates them here. -/

def asStr : Option Json → Option String
  | some (.str s) => some s
  | _ => none

def asNat : Option Json → Option Nat
  | some (.num n) => if n < 0 then none else some n.toNat
  | _ => none

def asInt : Option Json → Option Int
  | some (.num n) => some n
  | _ => none

/-- A date field of a parsed backup: the string `JSON.stringify` wrote,
`null` (an invalid date) staying invalid. -/
def decodeDate : Option Json → Dt
  | some (.str s) => .wire s
  | _ => .nan

def decodeStat (j : Json) : Option Stat := do
  let name ← asStr (jField j "name")
  let color ← asStr (jField j "color")
  let order ← asInt (jField j "order")
  pure { id := asNat (jField j "id"), name := name, color := color, order := order,
         createdAt := decodeDate (jField j "createdAt"),
         updatedAt := decodeDate (jField j "updatedAt") }

def decodeEntry (j : Json) : Option Entry := do
  let statId ← asNat (jField j "statId")
  let value ← asInt (jField j "value")
  let date ← asStr (jField j "date")
  pure { id := asNat (jField j "id"), statId := statId, value := value, date := date,
         createdAt := decodeDate (jField j "createdAt"),
         updatedAt := decodeDate (jField j "updatedAt") }

def decodeMeta (j : Json) : Option BackupMetadata := do
  let version ← asNat (jField j "version")
  let exportedAt ← asStr (jField j "exportedAt")
  let appVersion ← asStr (jField j "appVersion")
  let entryCount ← asNat (jField j "entryCount")
  let statCount ← asNat (jField j "statCount")
  let checksum ← asStr (jField j "checksum")
  pure { version := version, exportedAt := exportedAt, appVersion := appVersion,
         entryCount := entryCount, statCount := statCount, checksum := checksum }

/-- Read a parsed backup JSON value back into the `BackupFile` shape. -/
def decodeBackup (j : Json) : Option BackupFile := do
  let md ← match jField j "metadata" with
    | some jm => decodeMeta jm
    | none => none
  let jd ← jField j "data"
  let stats ← match jField jd "stats" with
    | some (.arr xs) => xs.mapM decodeStat
    | _ => none
  let entries ← match jField jd "entries" with
    | some (.arr xs) => xs.mapM decodeEntry
    | _ => none
  pure { metadata := md, data := { stats := stats, entries := entries } }


/-! ## `importData` (db.ts lines 159-186) and the timestamp hooks (lines 17-27)

`importData` parses its JSON string, clears both tables inside one
transaction, and bulk-inserts the records with `new Date(...)` re-hydrated
date fields; Dexie's `creating` hook then unconditionally overwrites
`createdAt` and `updatedAt` with `new Date()` on every insert. A missing
or non-array `stats`/`entries` field is skipped (`data.stats?.length`),
leaving that table empty. -/

/-- `new Date(x)` for a parsed-JSON field value `x`. -/
def jsNewDate : Option Json → Dt
  | some (.str s) =>
    match parseIso s with
    | some ms => .mem ms
    | none => .nan
  | some (.num n) => if n < 0 then .nan else .mem n.toNat
  | _ => .nan

/-- The stat object `importData` builds from one parsed record:
`{...s, createdAt: new Date(s.createdAt), updatedAt: new Date(s.updatedAt)}`,
with JS `undefined` field reads modelled by defaults that the `creating`
hook and the claims never observe. -/
def looseStat (j : Json) : Stat :=
  { id := asNat (jField j "id")
    name := (asStr (jField j "name")).getD ""
    color := (asStr (jField j "color")).getD ""
    order := (asInt (jField j "order")).getD 0
    createdAt := jsNewDate (jField j "createdAt")
    updatedAt := jsNewDate (jField j "updatedAt") }

def looseEntry (j : Json) : Entry :=
  { id := asNat (jField j "id")
    statId := (asNat (jField j "statId")).getD 0
    value := (asInt (jField j "value")).getD 0
    date := (asStr (jField j "date")).getD ""
    createdAt := jsNewDate (jField j "createdAt")
    updatedAt := jsNewDate (jField j "updatedAt") }

/-- Dexie's `creating` hook (db.ts lines 20-23): overwrite both timestamps
with `new Date()` on insert. -/
def hookStat (now : Nat) (s : Stat) : Stat :=
  { s with createdAt := .mem now, updatedAt := .mem now }

def hookEntry (now : Nat) (e : Entry) : Entry :=
  { e with createdAt := .mem now, updatedAt := .mem now }

/-- `data.stats?.length` guarding `bulkAdd`: a missing or non-array field,
like an empty array, contributes no rows. -/
def readColl : Option Json → List Json
  | some (.arr xs) => xs
  | _ => []

/-- The table contents after `importData(JSON.stringify(root))` run at
time `now`: clear-then-bulk-insert of the re-hydrated records, with the
`creating` hook applied to each inserted row. -/
def importParsed (root : Json) (now : Nat) : List Stat × List Entry :=
  ((readColl (jField root "stats")).map (fun j => hookStat now (looseStat j)),
   (readColl (jField root "entries")).map (fun j => hookEntry now (looseEntry j)))

/-! ## `mergeData` (sync.ts lines 49-86)

The two `Map`s are modelled as insertion-ordered association lists;
`Map.set` replaces in place or appends. The stat loop and the entry loop
are the same code modulo the record type, so they are embedded once,
generically in the record accessors. -/

/-- `Map.prototype.get`. -/
def alook {α : Type} (k : Nat) : List (Nat × α) → Option α
  | [] => none
  | (k', v) :: m => if k' = k then some v else alook k m

/-- `Map.prototype.set`: replace in place if the key is present (a `Map`
holds each key at most once), else append. -/
def mapSet {α : Type} : List (Nat × α) → Nat → α → List (Nat × α)
  | [], k, v => [(k, v)]
  | (k0, v0) :: m, k, v => if k0 = k then (k, v) :: m else (k0, v0) :: mapSet m k v

/-- The key a record contributes under JS truthiness: `s.id && ...` skips
both an `undefined` id and an id of `0`. -/
def truthyKey {α : Type} (getId : α → Option Nat) (r : α) : Option Nat :=
  match getId r with
  | some k => if k = 0 then none else some k
  | none => none

/-- One iteration of the cloud pass:
`s.id && m.set(s.id, s)` (skip a falsy id). -/
def setStep {α : Type} (getId : α → Option Nat) (m : List (Nat × α)) (r : α) :
    List (Nat × α) :=
  match truthyKey getId r with
  | some k => mapSet m k r
  | none => m

/-- The cloud pass: `cloud.data.xs.forEach((s) => s.id && m.set(s.id, s))`. -/
def jsSetAll {α : Type} (getId : α → Option Nat) (m : List (Nat × α)) (rs : List α) :
    List (Nat × α) :=
  rs.foldl (setStep getId) m

/-- One iteration of the local pass: keep the newer of the two records
(`!existing || new Date(s.updatedAt) > new Date(existing.updatedAt)`). -/
def mergeStep {α : Type} (getId : α → Option Nat) (getUpd : α → Dt)
    (m : List (Nat × α)) (r : α) : List (Nat × α) :=
  match truthyKey getId r with
  | some k =>
    match alook k m with
    | none => mapSet m k r
    | some ex => if dtAfter (getUpd r) (getUpd ex) then mapSet m k r else m
  | none => m

/-- The local pass of `mergeData`. -/
def jsMergeLocal {α : Type} (getId : α → Option Nat) (getUpd : α → Dt)
    (m : List (Nat × α)) (rs : List α) : List (Nat × α) :=
  rs.foldl (mergeStep getId getUpd) m

/-- `mergeData(local, cloud)` with `new Date().toISOString()` passed in. -/
def mergeData (localB cloudB : BackupFile) (nowIso : String) : BackupFile :=
  let sm := jsMergeLocal (fun s => s.id) (fun s => s.updatedAt)
    (jsSetAll (fun s => s.id) [] cloudB.data.stats) localB.data.stats
  let em := jsMergeLocal (fun e => e.id) (fun e => e.updatedAt)
    (jsSetAll (fun e => e.id) [] cloudB.data.entries) localB.data.entries
  let stats := sm.map (fun p => p.2)
  let entries := em.map (fun p => p.2)
  { metadata :=
      { version := 1
        exportedAt := nowIso
        appVersion := "1.0.0"
        entryCount := entries.length
        statCount := stats.length
        checksum := generateChecksum stats entries }
    data := { stats := stats, entries := entries } }

/-! ## The sync engine state machine (sync.ts `performSync`, `resolveConflict`)

The world threads the local store, the settings row, the remote file, the
current time, and instrumentation logs of every successful upload and
import. Each fallible external step has a failure-injection flag; a `true`
flag makes that step throw when reached, which the embedding renders as an
`error`-status result carrying the world as mutated so far. -/

inductive ConflictResolution where
  | keepLocal
  | useCloud
  | merge
deriving DecidableEq

inductive SyncStatus where
  | success
  | conflict
  | noChanges
  | error
deriving DecidableEq

structure SyncResult where
  status : SyncStatus
  message : String
  cloudBackup : Option BackupFile := none
  localBackup : Option BackupFile := none
deriving DecidableEq

/-- The settings row's sync-related fields (`lastSyncTime`,
`lastSyncChecksum`, `driveFileId`); `updateSettings` patches only the
fields a call site passes. -/
structure SettingsS where
  lastSyncTime : Option String := none
  lastSyncChecksum : Option String := none
  driveFileId : Option String := none
deriving DecidableEq

structure World where
  stats : List Stat
  entries : List Entry
  settings : SettingsS
  /-- The remote backup file, as `(fileId, contents)`, if one exists. -/
  remote : Option (String × BackupFile)
  /-- The current time; every `new Date()` in one run reads it. -/
  now : Nat
  /-- The id Drive assigns when `uploadBackup` creates a new file. -/
  freshId : String
  /-- Log of every successful `uploadBackup` payload, in order. -/
  uploads : List BackupFile := []
  /-- Log of the dataset of every successful `importData` call, in order. -/
  imports : List (List Stat × List Entry) := []
  failGetSettings : Bool := false
  failBuild : Bool := false
  failFind : Bool := false
  failDownload : Bool := false
  failUpload : Bool := false
  failImport : Bool := false
  failUpdateSettings : Bool := false
deriving DecidableEq

def errorResult (msg : String) : SyncResult := { status := .error, message := msg }

/-- A successful `importData(JSON.stringify({stats, entries, exportedAt}))`:
clear both tables and insert the rows `importParsed` describes, logging the
dataset that was passed in. -/
def importDataW (w : World) (stats : List Stat) (entries : List Entry)
    (exportedAt : String) : World :=
  let p := importParsed (flatExport stats entries exportedAt) w.now
  { w with stats := p.1, entries := p.2, imports := w.imports ++ [(stats, entries)] }

/-- `resolveConflict` (sync.ts lines 88-136). -/
def resolveConflict (w : World) (fileId : String) (localB cloudB : BackupFile)
    (res : ConflictResolution) : SyncResult × World :=
  match res with
  | .keepLocal =>
    if w.failUpload then (errorResult "Failed to upload backup: 500", w) else
    let w := { w with remote := some (fileId, localB), uploads := w.uploads ++ [localB] }
    if w.failUpdateSettings then (errorResult "Failed to update settings", w) else
    let w := { w with settings := { w.settings with
      lastSyncTime := some (isoString w.now),
      lastSyncChecksum := some localB.metadata.checksum } }
    ({ status := .success, message := "Local data uploaded to cloud" }, w)
  | .useCloud =>
    if w.failImport then (errorResult "Import failed", w) else
    let w := importDataW w cloudB.data.stats cloudB.data.entries cloudB.metadata.exportedAt
    if w.failUpdateSettings then (errorResult "Failed to update settings", w) else
    let w := { w with settings := { w.settings with
      lastSyncTime := some (isoString w.now),
      lastSyncChecksum := some cloudB.metadata.checksum } }
    ({ status := .success, message := "Cloud data restored to device" }, w)
  | .merge =>
    let merged := mergeData localB cloudB (isoString w.now)
    if w.failImport then (errorResult "Import failed", w) else
    let w := importDataW w merged.data.stats merged.data.entries (isoString w.now)
    if w.failBuild then (errorResult "Database read failed", w) else
    let newB := buildBackup w.stats w.entries (isoString w.now)
    if w.failUpload then (errorResult "Failed to upload backup: 500", w) else
    let w := { w with remote := some (fileId, newB), uploads := w.uploads ++ [newB] }
    if w.failUpdateSettings then (errorResult "Failed to update settings", w) else
    let w := { w with settings := { w.settings with
      lastSyncTime := some (isoString w.now),
      lastSyncChecksum := some newB.metadata.checksum } }
    ({ status := .success, message := "Data merged successfully" }, w)

/-- `performSync` (sync.ts lines 138-203). The `try`/`catch` that wraps
the body is rendered by each fallible step returning the `error` result
directly. -/
def performSync (w : World) (res : Option ConflictResolution) : SyncResult × World :=
  if w.failGetSettings then (errorResult "Settings read failed", w) else
  let settings := w.settings
  if w.failBuild then (errorResult "Database read failed", w) else
  let localB := buildBackup w.stats w.entries (isoString w.now)
  if w.failFind then (errorResult "Failed to list files: 500", w) else
  match w.remote with
  | none =>
    -- No cloud backup exists - just upload
    if w.failUpload then (errorResult "Failed to upload backup: 500", w) else
    let fileId := w.freshId
    let w := { w with remote := some (fileId, localB), uploads := w.uploads ++ [localB] }
    if w.failUpdateSettings then (errorResult "Failed to update settings", w) else
    let w := { w with settings := { settings with
      driveFileId := some fileId,
      lastSyncTime := some (isoString w.now),
      lastSyncChecksum := some localB.metadata.checksum } }
    ({ status := .success, message := "Backup created in Google Drive" }, w)
  | some (fid, cloudB) =>
    if w.failDownload then (errorResult "Failed to download backup: 500", w) else
    if cloudB.metadata.checksum = localB.metadata.checksum then
      -- Same checksum - no changes needed
      if w.failUpdateSettings then (errorResult "Failed to update settings", w) else
      let w := { w with settings := { settings with
        driveFileId := some fid,
        lastSyncTime := some (isoString w.now) } }
      ({ status := .noChanges, message := "Data is already in sync" }, w)
    else if settings.lastSyncChecksum = some cloudB.metadata.checksum then
      -- Check if only local changed (cloud matches last sync)
      if w.failUpload then (errorResult "Failed to upload backup: 500", w) else
      let w := { w with remote := some (fid, localB), uploads := w.uploads ++ [localB] }
      if w.failUpdateSettings then (errorResult "Failed to update settings", w) else
      let w := { w with settings := { settings with
        lastSyncTime := some (isoString w.now),
        lastSyncChecksum := some localB.metadata.checksum } }
      ({ status := .success, message := "Backup updated in Google Drive" }, w)
    else
      -- Both local and cloud changed - conflict!
      match res with
      | none =>
        ({ status := .conflict, message := "Both local and cloud data have changed",
           cloudBackup := some cloudB, localBackup := some localB }, w)
      | some r => resolveConflict w fid localB cloudB r


/-! ## Wire form and re-hydration of date fields -/

/-- What `JSON.stringify` followed by `JSON.parse` leaves in a date field:
a `Date` becomes its ISO string, a string stays itself, an invalid `Date`
becomes `null` (here: stays invalid). -/
def dtWire : Dt → Dt
  | .mem ms => .wire (isoString ms)
  | .wire s => .wire s
  | .nan => .nan

/-- `new Date(x)` on a date-field value: re-hydrate a wire string to a
`Date` (an unparseable string gives an invalid date). -/
def reDt : Dt → Dt
  | .wire s =>
    match parseIso s with
    | some ms => .mem ms
    | none => .nan
  | d => d

/-- A date field that round-trips exactly: an in-memory `Date` before the
year 10000. -/
def dtOkB : Dt → Bool
  | .mem ms => ms < isoBound
  | _ => false

/-- A stat as it comes back from `JSON.parse` of its serialization. -/
def wireStat (s : Stat) : Stat :=
  { s with createdAt := dtWire s.createdAt, updatedAt := dtWire s.updatedAt }

def wireEntry (e : Entry) : Entry :=
  { e with createdAt := dtWire e.createdAt, updatedAt := dtWire e.updatedAt }

/-- Re-hydrate a parsed record's date fields with `new Date(...)`. -/
def rehydrateStat (s : Stat) : Stat :=
  { s with createdAt := reDt s.createdAt, updatedAt := reDt s.updatedAt }

def rehydrateEntry (e : Entry) : Entry :=
  { e with createdAt := reDt e.createdAt, updatedAt := reDt e.updatedAt }


/-! ## Merge-map auxiliary notions -/

/-- The truthy keys a record list contributes, in order. -/
def truthyIds {α : Type} (getId : α → Option Nat) (rs : List α) : List Nat :=
  rs.filterMap (truthyKey getId)

/-- Every map entry stores a record whose truthy key is its key. -/
def MapInv {α : Type} (getId : α → Option Nat) (m : List (Nat × α)) : Prop :=
  ∀ p ∈ m, truthyKey getId p.2 = some p.1

/-- The safety contract of one sync run starting from `w0`: an `error`
result leaves the watermark untouched and carries a message, and any
watermark change belongs to a successful run and matches a backup that
was uploaded, or a dataset that was imported, during this very run. -/
@[reducible] def SafeOutcome (w0 : World) (out : SyncResult × World) : Prop :=
  (out.1.status = .error →
    out.2.settings.lastSyncChecksum = w0.settings.lastSyncChecksum) ∧
  (out.1.status = .error → out.1.message ≠ "") ∧
  (out.2.settings.lastSyncChecksum ≠ w0.settings.lastSyncChecksum →
    out.1.status = .success ∧
    ∃ b : BackupFile,
      out.2.settings.lastSyncChecksum = some b.metadata.checksum ∧
      (b ∈ out.2.uploads.drop w0.uploads.length ∨
       (b.data.stats, b.data.entries) ∈ out.2.imports.drop w0.imports.length))

/-! ## Concrete demonstration values (used by witnesses and counterexamples) -/

def demoStatA : Stat :=
  { id := some 1, name := "mood", color := "#e07a5f", order := 0,
    createdAt := Dt.mem 0, updatedAt := Dt.mem 86400000 }

def demoStatA' : Stat :=
  { id := some 1, name := "mood", color := "#577590", order := 7,
    createdAt := Dt.mem 555, updatedAt := Dt.mem 86400000 }

def demoStatB : Stat :=
  { id := some 2, name := "energy", color := "#81b29a", order := 1,
    createdAt := Dt.mem 1000, updatedAt := Dt.mem 7200000 }

def demoStatAW : Stat :=
  { id := some 1, name := "mood", color := "#e07a5f", order := 0,
    createdAt := Dt.wire "2024-01-02T00:00:00.000Z",
    updatedAt := Dt.wire "2024-01-02T00:00:00.000Z" }

def demoStatBW : Stat :=
  { id := some 2, name := "energy", color := "#81b29a", order := 1,
    createdAt := Dt.wire "2024-01-01T00:00:00.000Z",
    updatedAt := Dt.wire "2024-01-01T00:00:00.000Z" }

def demoStatOld : Stat :=
  { id := some 1, name := "mood", color := "#3d405b", order := 0,
    createdAt := Dt.mem 0, updatedAt := Dt.mem 100 }

def demoEntryA : Entry :=
  { id := some 2, statId := 1, value := 5, date := "2024-10-10",
    createdAt := Dt.mem 0, updatedAt := Dt.mem 99 }

def demoEntryA' : Entry :=
  { id := some 2, statId := 9, value := 5, date := "1999-01-01",
    createdAt := Dt.mem 3, updatedAt := Dt.mem 99 }

def demoCloudStat : Stat :=
  { id := some 7, name := "focus", color := "#9a8c98", order := 2,
    createdAt := Dt.wire "2024-01-01T00:00:00.000Z",
    updatedAt := Dt.wire "2024-01-02T00:00:00.000Z" }

def demoCloudB : BackupFile := buildBackup [demoCloudStat] [] "2024-01-03T00:00:00.000Z"

def demoLocalB : BackupFile := buildBackup [] [] (isoString 0)

/-- A world in conflict where the watermark equals the local checksum
(only the remote changed since the last sync). -/
def demoWorld1 : World :=
  { stats := [demoStatA], entries := [],
    settings := { lastSyncChecksum := some (generateChecksum [demoStatA] []) },
    remote := some ("f1", buildBackup [demoStatA, demoStatB] [] "x"),
    now := 0, freshId := "g" }

/-- A world whose remote backup carries the same checksum as the local
data, with no cached drive file id. -/
def demoWorld5 : World :=
  { stats := [demoStatA], entries := [], settings := {},
    remote := some ("f1", buildBackup [demoStatA] [] "y"),
    now := 0, freshId := "g" }

/-- A world where the watermark matches the remote checksum but the local
data went ahead. -/
def demoWorld6 : World :=
  { stats := [demoStatAW], entries := [],
    settings := { lastSyncChecksum := some (generateChecksum [demoStatBW] []) },
    remote := some ("f6", buildBackup [demoStatBW] [] "z"),
    now := 0, freshId := "g" }

/-- An empty local store next to a remote backup with wire-format dates. -/
def demoWorld10 : World :=
  { stats := [], entries := [], settings := {},
    remote := some ("f1", demoCloudB), now := 0, freshId := "g" }

/-- A world whose upload step throws. -/
def demoWorldF : World :=
  { stats := [], entries := [], settings := { lastSyncChecksum := some "ab12" },
    remote := none, now := 0, freshId := "g", failUpload := true }

/-! ## Theorems: calendar correctness -/

theorem yoeArg_succ (x : Nat) :
    x - x / 1460 + x / 36524 - x / 146096 ≤
      (x + 1) - (x + 1) / 1460 + (x + 1) / 36524 - (x + 1) / 146096 := by
  omega

theorem yoeOf_mono {a b : Nat} (h : a ≤ b) : yoeOf a ≤ yoeOf b :=
  Nat.div_le_div_right
    (monotone_nat_of_le_succ yoeArg_succ h)

set_option maxRecDepth 2000 in
theorem yoe_table :
    ∀ y, y < 401 →
      (y ≤ 399 → yoeOf (startOf y) = y) ∧ (1 ≤ y → yoeOf (startOf y - 1) = y - 1) := by
  decide

theorem yoe_end : yoeOf 146096 = 399 ∧ startOf 399 = 145731 := by decide

theorem startOf_zero : startOf 0 = 0 := by decide

theorem bracket :
    ∀ k doe, doe < startOf k → ∃ y, y < k ∧ startOf y ≤ doe ∧ doe < startOf (y + 1) := by
  intro k
  induction k with
  | zero => intro doe h; rw [startOf_zero] at h; omega
  | succ k ih =>
    intro doe h
    by_cases h' : doe < startOf k
    · obtain ⟨y, hy1, hy2, hy3⟩ := ih doe h'
      exact ⟨y, by omega, hy2, hy3⟩
    · exact ⟨k, by omega, by omega, h⟩

theorem yoe_spec (doe : Nat) (h : doe < 146097) :
    yoeOf doe ≤ 399 ∧ startOf (yoeOf doe) ≤ doe ∧ doe - startOf (yoeOf doe) ≤ 365 := by
  by_cases hend : doe = 146096
  · subst hend
    exact ⟨by decide, by decide, by decide⟩
  · have h400 : startOf 400 = 146096 := by decide
    obtain ⟨y, hy, h1, h2⟩ := bracket 400 doe (by omega)
    have t1 : yoeOf (startOf y) = y := ((yoe_table y (by omega)).1 (by omega))
    have t2 : yoeOf (startOf (y + 1) - 1) = y := by
      have := (yoe_table (y + 1) (by omega)).2 (by omega)
      omega
    have m1 := yoeOf_mono h1
    have m2 := yoeOf_mono (show doe ≤ startOf (y + 1) - 1 by omega)
    have hEq : yoeOf doe = y := by omega
    have gap : startOf (y + 1) ≤ startOf y + 366 := by unfold startOf; omega
    rw [hEq]
    omega

set_option maxHeartbeats 1000000 in
theorem civil_spec (z y m d : Nat) (h : civilFromDays z = (y, m, d)) :
    daysFromCivil y m d = z ∧ 1970 ≤ y ∧ 1 ≤ m ∧ m ≤ 12 ∧ 1 ≤ d ∧ d ≤ 31 ∧
      (z ≤ 2932896 → y ≤ 9999) := by
  have hdlt : (z + 719468) % 146097 < 146097 := Nat.mod_lt _ (by omega)
  obtain ⟨hy, hs, hd⟩ := yoe_spec ((z + 719468) % 146097) hdlt
  have hsplit := Nat.div_add_mod (z + 719468) 146097
  set era := (z + 719468) / 146097 with hera
  set doe := (z + 719468) % 146097 with hdoe
  set Y := yoeOf doe with hY
  set st := startOf Y with hst
  set doy := doe - st with hdoy
  set mp := (5 * doy + 2) / 153 with hmp
  set dd := doy - (153 * mp + 2) / 5 + 1 with hdd
  set mm := if mp < 10 then mp + 3 else mp - 9 with hmm
  have hciv : civilFromDays z = (if mm ≤ 2 then Y + era * 400 + 1 else Y + era * 400, mm, dd) := rfl
  have hstv : st = 365 * Y + Y / 4 - Y / 100 := hst
  clear_value mm dd mp doy st Y doe era
  rw [hciv] at h
  simp only [Prod.mk.injEq] at h
  obtain ⟨hy', hm', hd'⟩ := h
  subst hm' hd'
  have hmp11 : mp ≤ 11 := by omega
  have hback : (153 * mp + 2) / 5 ≤ doy := by omega
  have hd31 : dd ≤ 31 := by omega
  have heraCase : era = 4 ∨ 5 ≤ era := by omega
  have heraHi : z ≤ 2932896 → era ≤ 23 ∨ era = 24 := by omega
  by_cases hsm : mp < 10
  · -- months March..December: mm = mp + 3 ∈ [3, 12]
    have hmmv : mm = mp + 3 := by rw [hmm, if_pos hsm]
    have hnot2 : ¬ mm ≤ 2 := by omega
    have hdoy305 : doy ≤ 305 := by omega
    rw [if_neg hnot2] at hy'
    subst hy'
    have h1970 : 1970 ≤ Y + era * 400 := by
      rcases heraCase with he | he
      · omega
      · omega
    have h9999 : z ≤ 2932896 → Y + era * 400 ≤ 9999 := by
      intro hz
      rcases heraHi hz with he | he
      · omega
      · omega
    refine ⟨?_, h1970, by omega, by omega, by omega, hd31, h9999⟩
    have h2m : 2 < mm := by omega
    simp only [daysFromCivil, if_neg (show ¬ mm ≤ 2 from hnot2), if_pos h2m]
    have hm3 : mm - 3 = mp := by omega
    rw [hm3]
    have hdiv : (Y + era * 400) / 400 = era := by omega
    have hmod : (Y + era * 400) % 400 = Y := by omega
    rw [hdiv, hmod, ← hst]
    omega
  · -- months January..February: mm = mp - 9 ∈ [1, 2]
    have hmmv : mm = mp - 9 := by rw [hmm, if_neg hsm]
    have hle2 : mm ≤ 2 := by omega
    have hdoy306 : 306 ≤ doy := by omega
    rw [if_pos hle2] at hy'
    subst hy'
    have h1970 : 1970 ≤ Y + era * 400 + 1 := by
      rcases heraCase with he | he
      · omega
      · omega
    have h9999 : z ≤ 2932896 → Y + era * 400 + 1 ≤ 9999 := by
      intro hz
      rcases heraHi hz with he | he
      · omega
      · omega
    refine ⟨?_, h1970, by omega, by omega, by omega, hd31, h9999⟩
    have h2m : ¬ 2 < mm := by omega
    simp only [daysFromCivil, if_pos hle2, if_neg h2m]
    have hm9 : mm + 9 = mp := by omega
    rw [hm9]
    have hcan : Y + era * 400 + 1 - 1 = Y + era * 400 := by omega
    rw [hcan]
    have hdiv : (Y + era * 400) / 400 = era := by omega
    have hmod : (Y + era * 400) % 400 = Y := by omega
    rw [hdiv, hmod, ← hst]
    omega


/-- C6: with a remote file whose checksum differs from the local one while
the watermark equals the remote checksum, the run overwrites the remote
file with the local backup, sets the watermark to the local checksum, and
reports `success`. -/
theorem C6_local_only_upload (w : World) (fid : String) (cloudB : BackupFile)
    (res : Option ConflictResolution)
    (h1 : w.failGetSettings = false) (h2 : w.failBuild = false)
    (h3 : w.failFind = false) (h4 : w.failDownload = false)
    (h5 : w.failUpload = false) (h6 : w.failUpdateSettings = false)
    (hrem : w.remote = some (fid, cloudB))
    (hne : cloudB.metadata.checksum ≠
      (buildBackup w.stats w.entries (isoString w.now)).metadata.checksum)
    (hwm : w.settings.lastSyncChecksum = some cloudB.metadata.checksum) :
    performSync w res =
      ({ status := .success, message := "Backup updated in Google Drive" },
       { w with
         remote := some (fid, buildBackup w.stats w.entries (isoString w.now)),
         uploads := w.uploads ++ [buildBackup w.stats w.entries (isoString w.now)],
         settings := { w.settings with
           lastSyncTime := some (isoString w.now),
           lastSyncChecksum :=
             some (buildBackup w.stats w.entries (isoString w.now)).metadata.checksum } }) := by
  simp [performSync, h1, h2, h3, h4, h5, h6, hrem, hne, hwm]

set_option maxRecDepth 100000 in
/-- Witness for C6: in `demoWorld6` the cloud matches the watermark and the
local data went ahead, so the run uploads the local backup and moves the
watermark to the local checksum. -/
theorem C6_local_only_upload_witness :
    performSync demoWorld6 none =
      ({ status := .success, message := "Backup updated in Google Drive" },
       { demoWorld6 with
         remote := some ("f6", buildBackup demoWorld6.stats demoWorld6.entries
           (isoString demoWorld6.now)),
         uploads := demoWorld6.uploads ++
           [buildBackup demoWorld6.stats demoWorld6.entries (isoString demoWorld6.now)],
         settings := { demoWorld6.settings with
           lastSyncTime := some (isoString demoWorld6.now),
           lastSyncChecksum := some (buildBackup demoWorld6.stats demoWorld6.entries
             (isoString demoWorld6.now)).metadata.checksum } }) :=
  C6_local_only_upload demoWorld6 "f6" (buildBackup [demoStatBW] [] "z") none
    rfl rfl rfl rfl rfl rfl rfl (by decide) (by decide)

theorem digit_isDigit : ∀ k, k < 10 → (Nat.digitChar k).isDigit = true := by decide

theorem dv_digit : ∀ k, k < 10 → dv (Nat.digitChar k) = k := by decide

theorem isDigit_mod (n : Nat) : (Nat.digitChar (n % 10)).isDigit = true :=
  digit_isDigit _ (Nat.mod_lt _ (by omega))

theorem dv_mod (n : Nat) : dv (Nat.digitChar (n % 10)) = n % 10 :=
  dv_digit _ (Nat.mod_lt _ (by omega))

set_option maxRecDepth 16000 in
theorem parseIso_isoString (ms : Nat) (h : ms < isoBound) :
    parseIso (isoString ms) = some ms := by
  rcases hcd : civilFromDays (ms / msPerDay) with ⟨y, m, d⟩
  obtain ⟨hrt, hy1970, hm1, hm12, hd1, hd31, hy9999⟩ := civil_spec _ y m d hcd
  have hz : ms / msPerDay ≤ 2932896 := by
    simp only [isoBound] at h
    simp only [msPerDay]
    omega
  have hy4 : y ≤ 9999 := hy9999 hz
  have hrlt : ms % msPerDay < 86400000 := by
    simp only [msPerDay]; omega
  simp only [parseIso, isoString, isoChars, hcd, pad4l, pad2l, pad3l,
    List.cons_append, List.nil_append]
  simp only [parseIsoChars, isDigit_mod, dv_mod, msPerDay]
  simp only [msPerDay] at hrt hrlt
  rw [if_pos (by simp)]
  have e1 : y / 1000 % 10 * 1000 + y / 100 % 10 * 100 + y / 10 % 10 * 10 + y % 10 = y := by omega
  have e2 : m / 10 % 10 * 10 + m % 10 = m := by omega
  have e3 : d / 10 % 10 * 10 + d % 10 = d := by omega
  have e4 : ms % 86400000 / 3600000 / 10 % 10 * 10 + ms % 86400000 / 3600000 % 10 =
      ms % 86400000 / 3600000 := by omega
  have e5 : ms % 86400000 % 3600000 / 60000 / 10 % 10 * 10 + ms % 86400000 % 3600000 / 60000 % 10 =
      ms % 86400000 % 3600000 / 60000 := by omega
  have e6 : ms % 86400000 % 60000 / 1000 / 10 % 10 * 10 + ms % 86400000 % 60000 / 1000 % 10 =
      ms % 86400000 % 60000 / 1000 := by omega
  have e7 : ms % 86400000 % 1000 / 100 % 10 * 100 + ms % 86400000 % 1000 / 10 % 10 * 10 +
      ms % 86400000 % 1000 % 10 = ms % 86400000 % 1000 := by omega
  rw [e1, e2, e3, e4, e5, e6, e7]
  rw [if_pos ⟨hy1970, hm1, hm12, hd1, hd31, by omega, by omega, by omega⟩, hrt]
  simp only [Option.some.injEq]
  omega


theorem asNat_none : asNat none = none := rfl

theorem asNat_ofNat (n : Nat) : asNat (some (Json.num (n : Int))) = some n := by
  simp only [asNat]
  rw [if_neg (by omega)]
  simp

theorem loose_round_stat (now : Nat) (s : Stat) :
    hookStat now (looseStat (statToJson s)) = hookStat now s := by
  rcases s with ⟨id, name, color, order, ca, ua⟩
  rcases id with _ | i <;>
    simp [statToJson, looseStat, jField, jGet, asStr, asNat_ofNat, asNat_none, asInt, hookStat, jsNewDate]

theorem loose_round_entry (now : Nat) (e : Entry) :
    hookEntry now (looseEntry (entryToJson e)) = hookEntry now e := by
  rcases e with ⟨id, statId, value, date, ca, ua⟩
  rcases id with _ | i <;>
    simp [entryToJson, looseEntry, jField, jGet, asStr, asNat_ofNat, asNat_none, asInt, hookEntry, jsNewDate]

theorem importParsed_flat (stats : List Stat) (entries : List Entry) (t : String) (now : Nat) :
    importParsed (flatExport stats entries t) now =
      (stats.map (hookStat now), entries.map (hookEntry now)) := by
  have hf : (fun s => hookStat now (looseStat (statToJson s))) = hookStat now :=
    funext (loose_round_stat now)
  have hg : (fun e => hookEntry now (looseEntry (entryToJson e))) = hookEntry now :=
    funext (loose_round_entry now)
  simp [importParsed, flatExport, jField, jGet, readColl, List.map_map, Function.comp_def, hf, hg]

section MergeLemmas

variable {α : Type} (getId : α → Option Nat) (getUpd : α → Dt)

theorem truthyKey_eq_some {r : α} {k : Nat} :
    truthyKey getId r = some k ↔ getId r = some k ∧ k ≠ 0 := by
  unfold truthyKey
  rcases h : getId r with _ | k'
  · simp
  · by_cases h0 : k' = 0 <;> simp [h0] <;> omega

theorem alook_mapSet_self (m : List (Nat × α)) (k : Nat) (v : α) :
    alook k (mapSet m k v) = some v := by
  induction m with
  | nil => simp [mapSet, alook]
  | cons p m ih =>
    obtain ⟨k0, v0⟩ := p
    by_cases h0 : k0 = k
    · simp [mapSet, h0, alook]
    · simp [mapSet, h0, alook, ih]

theorem alook_mapSet_other (m : List (Nat × α)) (k k' : Nat) (v : α) (h : k ≠ k') :
    alook k' (mapSet m k v) = alook k' m := by
  induction m with
  | nil => simp [mapSet, alook, h]
  | cons p m ih =>
    obtain ⟨k0, v0⟩ := p
    by_cases h0 : k0 = k
    · subst h0
      simp [mapSet, alook, h, if_neg (Ne.symm h)]
    · by_cases h1 : k0 = k'
      · subst h1
        simp [mapSet, h0, alook, Ne.symm h]
      · simp [mapSet, h0, alook, h1, ih]

theorem mem_mapSet {m : List (Nat × α)} {k : Nat} {v : α} {p : Nat × α}
    (h : p ∈ mapSet m k v) : p = (k, v) ∨ p ∈ m := by
  induction m with
  | nil => simpa [mapSet] using h
  | cons q m ih =>
    obtain ⟨k0, v0⟩ := q
    by_cases h0 : k0 = k
    · rw [mapSet, if_pos h0] at h
      rcases List.mem_cons.mp h with h | h
      · exact Or.inl h
      · exact Or.inr (List.mem_cons_of_mem _ h)
    · rw [mapSet, if_neg h0] at h
      rcases List.mem_cons.mp h with h | h
      · exact Or.inr (h ▸ List.mem_cons_self _ _)
      · rcases ih h with h | h
        · exact Or.inl h
        · exact Or.inr (List.mem_cons_of_mem _ h)

theorem keys_mapSet (m : List (Nat × α)) (k : Nat) (v : α) :
    (mapSet m k v).map Prod.fst = if (alook k m).isSome then m.map Prod.fst
      else m.map Prod.fst ++ [k] := by
  induction m with
  | nil => simp [mapSet, alook]
  | cons p m ih =>
    obtain ⟨k0, v0⟩ := p
    by_cases h0 : k0 = k
    · subst h0
      simp [mapSet, alook]
    · simp only [mapSet, if_neg h0, List.map_cons, alook,
        if_neg (fun hc => h0 hc), ih]
      split <;> simp

theorem alook_isSome_iff_mem_keys (m : List (Nat × α)) (k : Nat) :
    (alook k m).isSome ↔ k ∈ m.map Prod.fst := by
  induction m with
  | nil => simp [alook]
  | cons p m ih =>
    obtain ⟨k0, v0⟩ := p
    by_cases h0 : k0 = k
    · subst h0
      simp [alook]
    · simp only [alook, if_neg h0, List.map_cons, List.mem_cons]
      rw [ih]
      constructor
      · exact Or.inr
      · rintro (h | h)
        · exact absurd h.symm h0
        · exact h

theorem nodup_keys_mapSet {m : List (Nat × α)} (k : Nat) (v : α)
    (h : (m.map Prod.fst).Nodup) : ((mapSet m k v).map Prod.fst).Nodup := by
  rw [keys_mapSet]
  split
  · exact h
  · rw [List.nodup_append]
    refine ⟨h, List.nodup_singleton k, ?_⟩
    intro a ha hb
    rw [List.mem_singleton] at hb
    subst hb
    rw [← alook_isSome_iff_mem_keys] at ha
    simp_all

theorem alook_of_nodup_mem {m : List (Nat × α)} {p : Nat × α}
    (hk : (m.map Prod.fst).Nodup) (hp : p ∈ m) : alook p.1 m = some p.2 := by
  induction m with
  | nil => simp at hp
  | cons q m ih =>
    obtain ⟨k0, v0⟩ := q
    simp only [List.map_cons, List.nodup_cons] at hk
    rcases List.mem_cons.mp hp with h | h
    · subst h
      simp [alook]
    · have hne : k0 ≠ p.1 := by
        intro hcontra
        exact hk.1 (hcontra ▸ List.mem_map_of_mem Prod.fst h)
      simp only [alook, if_neg hne]
      exact ih hk.2 h

theorem mem_of_alook {m : List (Nat × α)} {k : Nat} {v : α}
    (h : alook k m = some v) : (k, v) ∈ m := by
  induction m with
  | nil => simp [alook] at h
  | cons p m ih =>
    obtain ⟨k0, v0⟩ := p
    by_cases h0 : k0 = k
    · subst h0
      simp [alook] at h
      subst h
      exact List.mem_cons_self _ _
    · simp only [alook, if_neg h0] at h
      exact List.mem_cons_of_mem _ (ih h)

end MergeLemmas

section PassLemmas

variable {α : Type} (getId : α → Option Nat) (getUpd : α → Dt)

theorem setStep_skip {m : List (Nat × α)} {r : α} (h : truthyKey getId r = none) :
    setStep getId m r = m := by
  simp [setStep, h]

theorem setStep_set {m : List (Nat × α)} {r : α} {k : Nat}
    (h : truthyKey getId r = some k) : setStep getId m r = mapSet m k r := by
  simp [setStep, h]

theorem mergeStep_skip {m : List (Nat × α)} {r : α} (h : truthyKey getId r = none) :
    mergeStep getId getUpd m r = m := by
  simp [mergeStep, h]

theorem mergeStep_new {m : List (Nat × α)} {r : α} {k : Nat}
    (h : truthyKey getId r = some k) (hex : alook k m = none) :
    mergeStep getId getUpd m r = mapSet m k r := by
  simp [mergeStep, h, hex]

theorem mergeStep_existing {m : List (Nat × α)} {r : α} {k : Nat} {ex : α}
    (h : truthyKey getId r = some k) (hex : alook k m = some ex) :
    mergeStep getId getUpd m r =
      (if dtAfter (getUpd r) (getUpd ex) then mapSet m k r else m) := by
  simp [mergeStep, h, hex]

theorem jsSetAll_nil (m : List (Nat × α)) : jsSetAll getId m [] = m := rfl

theorem jsSetAll_cons (m : List (Nat × α)) (r0 : α) (rs : List α) :
    jsSetAll getId m (r0 :: rs) = jsSetAll getId (setStep getId m r0) rs := rfl

theorem jsMergeLocal_nil (m : List (Nat × α)) : jsMergeLocal getId getUpd m [] = m := rfl

theorem jsMergeLocal_cons (m : List (Nat × α)) (r0 : α) (rs : List α) :
    jsMergeLocal getId getUpd m (r0 :: rs) =
      jsMergeLocal getId getUpd (mergeStep getId getUpd m r0) rs := rfl

theorem alook_setStep_other {m : List (Nat × α)} {r : α} {k : Nat}
    (h : truthyKey getId r ≠ some k) : alook k (setStep getId m r) = alook k m := by
  rcases hk : truthyKey getId r with _ | k0
  · rw [setStep_skip getId hk]
  · rw [setStep_set getId hk]
    have hne : k0 ≠ k := fun hc => h (by rw [hk, hc])
    rw [alook_mapSet_other _ _ _ _ hne]

theorem alook_mergeStep_other {m : List (Nat × α)} {r : α} {k : Nat}
    (h : truthyKey getId r ≠ some k) :
    alook k (mergeStep getId getUpd m r) = alook k m := by
  rcases hk : truthyKey getId r with _ | k0
  · rw [mergeStep_skip getId getUpd hk]
  · have hne : k0 ≠ k := fun hc => h (by rw [hk, hc])
    rcases hex : alook k0 m with _ | ex
    · rw [mergeStep_new getId getUpd hk hex, alook_mapSet_other _ _ _ _ hne]
    · rw [mergeStep_existing getId getUpd hk hex]
      split
      · rw [alook_mapSet_other _ _ _ _ hne]
      · rfl

theorem jsSetAll_untouched (rs : List α) (m : List (Nat × α)) (k : Nat)
    (h : ∀ r ∈ rs, truthyKey getId r ≠ some k) :
    alook k (jsSetAll getId m rs) = alook k m := by
  induction rs generalizing m with
  | nil => rfl
  | cons r rs ih =>
    rw [jsSetAll_cons, ih _ fun r' h' => h r' (List.mem_cons_of_mem _ h'),
      alook_setStep_other getId (h r (List.mem_cons_self _ _))]

theorem jsMergeLocal_untouched (rs : List α) (m : List (Nat × α)) (k : Nat)
    (h : ∀ r ∈ rs, truthyKey getId r ≠ some k) :
    alook k (jsMergeLocal getId getUpd m rs) = alook k m := by
  induction rs generalizing m with
  | nil => rfl
  | cons r rs ih =>
    rw [jsMergeLocal_cons, ih _ fun r' h' => h r' (List.mem_cons_of_mem _ h'),
      alook_mergeStep_other getId getUpd (h r (List.mem_cons_self _ _))]

theorem nodup_head_not_in_tail {rs : List α} {r : α} {k : Nat}
    (hnd : (truthyIds getId (r :: rs)).Nodup) (hk : truthyKey getId r = some k) :
    ∀ r' ∈ rs, truthyKey getId r' ≠ some k := by
  intro r' h' hc
  rw [truthyIds, List.filterMap_cons, hk, List.nodup_cons] at hnd
  exact hnd.1 (List.mem_filterMap.mpr ⟨r', h', hc⟩)

theorem nodup_truthy_tail {rs : List α} {r : α}
    (hnd : (truthyIds getId (r :: rs)).Nodup) : (truthyIds getId rs).Nodup := by
  rw [truthyIds, List.filterMap_cons] at hnd
  rcases hk : truthyKey getId r with _ | k0
  · rw [hk] at hnd
    exact hnd
  · rw [hk, List.nodup_cons] at hnd
    exact hnd.2

theorem jsSetAll_found (rs : List α) (m : List (Nat × α)) (k : Nat) (r : α)
    (hnd : (truthyIds getId rs).Nodup) (hr : r ∈ rs) (hk : truthyKey getId r = some k) :
    alook k (jsSetAll getId m rs) = some r := by
  induction rs generalizing m with
  | nil => simp at hr
  | cons r0 rs ih =>
    rw [jsSetAll_cons]
    rcases List.mem_cons.mp hr with h | h
    · subst h
      rw [jsSetAll_untouched getId rs _ k (nodup_head_not_in_tail getId hnd hk),
        setStep_set getId hk, alook_mapSet_self]
    · exact ih _ (nodup_truthy_tail getId hnd) h

theorem jsMergeLocal_found (rs : List α) (m : List (Nat × α)) (k : Nat) (r : α)
    (hnd : (truthyIds getId rs).Nodup) (hr : r ∈ rs) (hk : truthyKey getId r = some k) :
    alook k (jsMergeLocal getId getUpd m rs) =
      (match alook k m with
       | none => some r
       | some ex => if dtAfter (getUpd r) (getUpd ex) then some r else some ex) := by
  induction rs generalizing m with
  | nil => simp at hr
  | cons r0 rs ih =>
    rw [jsMergeLocal_cons]
    rcases List.mem_cons.mp hr with h | h
    · subst h
      rw [jsMergeLocal_untouched getId getUpd rs _ k (nodup_head_not_in_tail getId hnd hk)]
      rcases hex : alook k m with _ | ex
      · rw [mergeStep_new getId getUpd hk hex, alook_mapSet_self]
      · rw [mergeStep_existing getId getUpd hk hex]
        split
        next hafter =>
          rw [alook_mapSet_self]
          simp [hafter]
        next hafter =>
          rw [hex]
          simp [hafter]
    · have hnd' := nodup_truthy_tail getId hnd
      have hne : truthyKey getId r0 ≠ some k := by
        rcases hk0 : truthyKey getId r0 with _ | k0
        · simp
        · intro hc
          rw [truthyIds, List.filterMap_cons, hk0, List.nodup_cons] at hnd
          rw [Option.some.injEq] at hc
          subst hc
          exact hnd.1 (List.mem_filterMap.mpr ⟨r, h, hk⟩)
      rw [ih _ hnd' h, alook_mergeStep_other getId getUpd hne]

theorem alook_setStep_isSome (m : List (Nat × α)) (r0 : α) (k : Nat) :
    (alook k (setStep getId m r0)).isSome ↔
      (alook k m).isSome ∨ truthyKey getId r0 = some k := by
  rcases hk0 : truthyKey getId r0 with _ | k0
  · rw [setStep_skip getId hk0]
    simp
  · rw [setStep_set getId hk0]
    by_cases hkk : k0 = k
    · subst hkk
      rw [alook_mapSet_self]
      simp
    · rw [alook_mapSet_other _ _ _ _ hkk]
      simp [hkk]

theorem alook_mergeStep_isSome (m : List (Nat × α)) (r0 : α) (k : Nat) :
    (alook k (mergeStep getId getUpd m r0)).isSome ↔
      (alook k m).isSome ∨ truthyKey getId r0 = some k := by
  rcases hk0 : truthyKey getId r0 with _ | k0
  · rw [mergeStep_skip getId getUpd hk0]
    simp
  · rcases hex : alook k0 m with _ | ex
    · rw [mergeStep_new getId getUpd hk0 hex]
      by_cases hkk : k0 = k
      · subst hkk
        rw [alook_mapSet_self]
        simp
      · rw [alook_mapSet_other _ _ _ _ hkk]
        simp [hkk]
    · rw [mergeStep_existing getId getUpd hk0 hex]
      by_cases hkk : k0 = k
      · subst hkk
        split
        · rw [alook_mapSet_self]
          simp
        · rw [hex]
          simp
      · split
        · rw [alook_mapSet_other _ _ _ _ hkk]
          simp [hkk]
        · simp [hkk]

theorem jsSetAll_isSome (rs : List α) (m : List (Nat × α)) (k : Nat) :
    (alook k (jsSetAll getId m rs)).isSome ↔
      (alook k m).isSome ∨ ∃ r ∈ rs, truthyKey getId r = some k := by
  induction rs generalizing m with
  | nil => simp [jsSetAll_nil]
  | cons r0 rs ih =>
    rw [jsSetAll_cons, ih, alook_setStep_isSome]
    constructor
    · rintro ((h | h) | ⟨r, hr, h⟩)
      · exact Or.inl h
      · exact Or.inr ⟨r0, List.mem_cons_self _ _, h⟩
      · exact Or.inr ⟨r, List.mem_cons_of_mem _ hr, h⟩
    · rintro (h | ⟨r, hr, h⟩)
      · exact Or.inl (Or.inl h)
      · rcases List.mem_cons.mp hr with h' | h'
        · subst h'
          exact Or.inl (Or.inr h)
        · exact Or.inr ⟨r, h', h⟩

theorem jsMergeLocal_isSome (rs : List α) (m : List (Nat × α)) (k : Nat) :
    (alook k (jsMergeLocal getId getUpd m rs)).isSome ↔
      (alook k m).isSome ∨ ∃ r ∈ rs, truthyKey getId r = some k := by
  induction rs generalizing m with
  | nil => simp [jsMergeLocal_nil]
  | cons r0 rs ih =>
    rw [jsMergeLocal_cons, ih, alook_mergeStep_isSome]
    constructor
    · rintro ((h | h) | ⟨r, hr, h⟩)
      · exact Or.inl h
      · exact Or.inr ⟨r0, List.mem_cons_self _ _, h⟩
      · exact Or.inr ⟨r, List.mem_cons_of_mem _ hr, h⟩
    · rintro (h | ⟨r, hr, h⟩)
      · exact Or.inl (Or.inl h)
      · rcases List.mem_cons.mp hr with h' | h'
        · subst h'
          exact Or.inl (Or.inr h)
        · exact Or.inr ⟨r, h', h⟩

end PassLemmas

section MergeSpec

variable {α : Type} (getId : α → Option Nat) (getUpd : α → Dt)

theorem MapInv_mapSet {m : List (Nat × α)} {k : Nat} {r : α}
    (hm : MapInv getId m) (hr : truthyKey getId r = some k) :
    MapInv getId (mapSet m k r) := by
  intro p hp
  rcases mem_mapSet hp with h | h
  · subst h
    exact hr
  · exact hm p h

theorem MapInv_setStep {m : List (Nat × α)} {r : α} (hm : MapInv getId m) :
    MapInv getId (setStep getId m r) := by
  rcases hk : truthyKey getId r with _ | k0
  · rw [setStep_skip getId hk]
    exact hm
  · rw [setStep_set getId hk]
    exact MapInv_mapSet getId hm hk

theorem MapInv_mergeStep {m : List (Nat × α)} {r : α} (hm : MapInv getId m) :
    MapInv getId (mergeStep getId getUpd m r) := by
  rcases hk : truthyKey getId r with _ | k0
  · rw [mergeStep_skip getId getUpd hk]
    exact hm
  · rcases hex : alook k0 m with _ | ex
    · rw [mergeStep_new getId getUpd hk hex]
      exact MapInv_mapSet getId hm hk
    · rw [mergeStep_existing getId getUpd hk hex]
      split
      · exact MapInv_mapSet getId hm hk
      · exact hm

theorem MapInv_jsSetAll {m : List (Nat × α)} (rs : List α) (hm : MapInv getId m) :
    MapInv getId (jsSetAll getId m rs) := by
  induction rs generalizing m with
  | nil => exact hm
  | cons r rs ih =>
    rw [jsSetAll_cons]
    exact ih (MapInv_setStep getId hm)

theorem MapInv_jsMergeLocal {m : List (Nat × α)} (rs : List α) (hm : MapInv getId m) :
    MapInv getId (jsMergeLocal getId getUpd m rs) := by
  induction rs generalizing m with
  | nil => exact hm
  | cons r rs ih =>
    rw [jsMergeLocal_cons]
    exact ih (MapInv_mergeStep getId getUpd hm)

theorem nodup_keys_setStep {m : List (Nat × α)} {r : α}
    (h : (m.map Prod.fst).Nodup) : ((setStep getId m r).map Prod.fst).Nodup := by
  rcases hk : truthyKey getId r with _ | k0
  · rw [setStep_skip getId hk]
    exact h
  · rw [setStep_set getId hk]
    exact nodup_keys_mapSet _ _ h

theorem nodup_keys_mergeStep {m : List (Nat × α)} {r : α}
    (h : (m.map Prod.fst).Nodup) : ((mergeStep getId getUpd m r).map Prod.fst).Nodup := by
  rcases hk : truthyKey getId r with _ | k0
  · rw [mergeStep_skip getId getUpd hk]
    exact h
  · rcases hex : alook k0 m with _ | ex
    · rw [mergeStep_new getId getUpd hk hex]
      exact nodup_keys_mapSet _ _ h
    · rw [mergeStep_existing getId getUpd hk hex]
      split
      · exact nodup_keys_mapSet _ _ h
      · exact h

theorem nodup_keys_jsSetAll {m : List (Nat × α)} (rs : List α)
    (h : (m.map Prod.fst).Nodup) : ((jsSetAll getId m rs).map Prod.fst).Nodup := by
  induction rs generalizing m with
  | nil => exact h
  | cons r rs ih =>
    rw [jsSetAll_cons]
    exact ih (nodup_keys_setStep getId h)

theorem nodup_keys_jsMergeLocal {m : List (Nat × α)} (rs : List α)
    (h : (m.map Prod.fst).Nodup) : ((jsMergeLocal getId getUpd m rs).map Prod.fst).Nodup := by
  induction rs generalizing m with
  | nil => exact h
  | cons r rs ih =>
    rw [jsMergeLocal_cons]
    exact ih (nodup_keys_mergeStep getId getUpd h)

theorem mergeMap_spec (cloud locl : List α)
    (hc : (truthyIds getId cloud).Nodup) (hl : (truthyIds getId locl).Nodup) :
    (∀ v ∈ (jsMergeLocal getId getUpd (jsSetAll getId [] cloud) locl).map Prod.snd,
      ∃ k, getId v = some k ∧ k ≠ 0) ∧
    (((jsMergeLocal getId getUpd (jsSetAll getId [] cloud) locl).map Prod.snd).map getId).Nodup ∧
    (∀ k, k ≠ 0 →
      ((∃ v ∈ (jsMergeLocal getId getUpd (jsSetAll getId [] cloud) locl).map Prod.snd,
          getId v = some k) ↔
        (∃ c ∈ cloud, getId c = some k) ∨ (∃ l ∈ locl, getId l = some k))) ∧
    (∀ k c l, k ≠ 0 → c ∈ cloud → getId c = some k → l ∈ locl → getId l = some k →
      (if dtAfter (getUpd l) (getUpd c) then l else c) ∈
        (jsMergeLocal getId getUpd (jsSetAll getId [] cloud) locl).map Prod.snd) ∧
    (∀ k c, k ≠ 0 → c ∈ cloud → getId c = some k → (∀ l ∈ locl, getId l ≠ some k) →
      c ∈ (jsMergeLocal getId getUpd (jsSetAll getId [] cloud) locl).map Prod.snd) ∧
    (∀ k l, k ≠ 0 → l ∈ locl → getId l = some k → (∀ c ∈ cloud, getId c ≠ some k) →
      l ∈ (jsMergeLocal getId getUpd (jsSetAll getId [] cloud) locl).map Prod.snd) := by
  have hinvE : MapInv getId ([] : List (Nat × α)) := fun p hp => by simp at hp
  have hinv : MapInv getId (jsMergeLocal getId getUpd (jsSetAll getId [] cloud) locl) :=
    MapInv_jsMergeLocal getId getUpd locl (MapInv_jsSetAll getId cloud hinvE)
  have hnk : ((jsMergeLocal getId getUpd (jsSetAll getId [] cloud) locl).map Prod.fst).Nodup :=
    nodup_keys_jsMergeLocal getId getUpd locl
      (nodup_keys_jsSetAll getId cloud (by simp))
  refine ⟨?_, ?_, ?_, ?_, ?_, ?_⟩
  · intro v hv
    obtain ⟨p, hp, rfl⟩ := List.mem_map.mp hv
    obtain ⟨hid, hk0⟩ := (truthyKey_eq_some getId).mp (hinv p hp)
    exact ⟨p.1, hid, hk0⟩
  · have : ((jsMergeLocal getId getUpd (jsSetAll getId [] cloud) locl).map Prod.snd).map getId
        = ((jsMergeLocal getId getUpd (jsSetAll getId [] cloud) locl).map Prod.fst).map some := by
      rw [List.map_map, List.map_map]
      apply List.map_congr_left
      intro p hp
      exact ((truthyKey_eq_some getId).mp (hinv p hp)).1
    rw [this]
    exact hnk.map (fun a b h => Option.some.injEq _ _ ▸ h)
  · intro k hk0
    constructor
    · rintro ⟨v, hv, hid⟩
      obtain ⟨p, hp, rfl⟩ := List.mem_map.mp hv
      have hkey : p.1 = k := by
        have := ((truthyKey_eq_some getId).mp (hinv p hp)).1
        rw [this] at hid
        exact Option.some.injEq _ _ ▸ hid
      have hsome : (alook k (jsMergeLocal getId getUpd (jsSetAll getId [] cloud) locl)).isSome := by
        rw [alook_isSome_iff_mem_keys]
        exact hkey ▸ List.mem_map_of_mem Prod.fst hp
      rw [jsMergeLocal_isSome, jsSetAll_isSome] at hsome
      rcases hsome with (habs | ⟨c, hcmem, hckey⟩) | ⟨l, hlmem, hlkey⟩
      · simp [alook] at habs
      · exact Or.inl ⟨c, hcmem, ((truthyKey_eq_some getId).mp hckey).1⟩
      · exact Or.inr ⟨l, hlmem, ((truthyKey_eq_some getId).mp hlkey).1⟩
    · intro h
      have hsome : (alook k (jsMergeLocal getId getUpd (jsSetAll getId [] cloud) locl)).isSome := by
        rw [jsMergeLocal_isSome, jsSetAll_isSome]
        rcases h with ⟨c, hcmem, hckey⟩ | ⟨l, hlmem, hlkey⟩
        · exact Or.inl (Or.inr ⟨c, hcmem, (truthyKey_eq_some getId).mpr ⟨hckey, hk0⟩⟩)
        · exact Or.inr ⟨l, hlmem, (truthyKey_eq_some getId).mpr ⟨hlkey, hk0⟩⟩
      rcases hv : alook k (jsMergeLocal getId getUpd (jsSetAll getId [] cloud) locl) with _ | v
      · rw [hv] at hsome
        simp at hsome
      · have hmem := mem_of_alook hv
        refine ⟨v, List.mem_map_of_mem Prod.snd hmem, ?_⟩
        exact ((truthyKey_eq_some getId).mp (hinv _ hmem)).1
  · intro k c l hk0 hcmem hcid hlmem hlid
    have hcloud : alook k (jsSetAll getId [] cloud) = some c :=
      jsSetAll_found getId cloud [] k c hc hcmem ((truthyKey_eq_some getId).mpr ⟨hcid, hk0⟩)
    have hall := jsMergeLocal_found getId getUpd locl (jsSetAll getId [] cloud) k l hl hlmem
      ((truthyKey_eq_some getId).mpr ⟨hlid, hk0⟩)
    rw [hcloud] at hall
    rcases hd : dtAfter (getUpd l) (getUpd c) with _ | _
    · rw [if_neg (by simp [hd])]
      simp only [hd, Bool.false_eq_true, if_false] at hall
      exact List.mem_map_of_mem Prod.snd (mem_of_alook hall)
    · rw [if_pos (by simp [hd])]
      simp only [hd, if_true] at hall
      exact List.mem_map_of_mem Prod.snd (mem_of_alook hall)
  · intro k c hk0 hcmem hcid hlnone
    have hcloud : alook k (jsSetAll getId [] cloud) = some c :=
      jsSetAll_found getId cloud [] k c hc hcmem ((truthyKey_eq_some getId).mpr ⟨hcid, hk0⟩)
    have huntouched : ∀ r ∈ locl, truthyKey getId r ≠ some k := by
      intro r hr hcontra
      exact hlnone r hr ((truthyKey_eq_some getId).mp hcontra).1
    have := jsMergeLocal_untouched getId getUpd locl (jsSetAll getId [] cloud) k huntouched
    rw [hcloud] at this
    exact List.mem_map_of_mem Prod.snd (mem_of_alook this)
  · intro k l hk0 hlmem hlid hcnone
    have huntouched : ∀ r ∈ cloud, truthyKey getId r ≠ some k := by
      intro r hr hcontra
      exact hcnone r hr ((truthyKey_eq_some getId).mp hcontra).1
    have hcloud : alook k (jsSetAll getId [] cloud) = none := by
      rw [jsSetAll_untouched getId cloud [] k huntouched]
      rfl
    have hall := jsMergeLocal_found getId getUpd locl (jsSetAll getId [] cloud) k l hl hlmem
      ((truthyKey_eq_some getId).mpr ⟨hlid, hk0⟩)
    rw [hcloud] at hall
    exact List.mem_map_of_mem Prod.snd (mem_of_alook hall)

end MergeSpec

theorem safe_error (w0 w : World) (msg : String) (hm : msg ≠ "")
    (hs : w.settings = w0.settings) : SafeOutcome w0 (errorResult msg, w) :=
  ⟨fun _ => by rw [hs], fun _ => hm, fun hc => absurd (by rw [hs]) hc⟩

theorem safe_unchanged (w0 w : World) (r : SyncResult) (hst : r.status ≠ .error)
    (hs : w.settings.lastSyncChecksum = w0.settings.lastSyncChecksum) :
    SafeOutcome w0 (r, w) :=
  ⟨fun h => absurd h hst, fun h => absurd h hst, fun hc => absurd hs hc⟩

theorem safe_resolve (w : World) (fid : String) (localB cloudB : BackupFile)
    (r : ConflictResolution) :
    SafeOutcome w (resolveConflict w fid localB cloudB r) := by
  cases r with
  | keepLocal =>
    cases hu : w.failUpload with
    | true =>
      simp only [resolveConflict, hu, if_true]
      exact safe_error w w _ (by decide) rfl
    | false =>
      cases hs : w.failUpdateSettings with
      | true =>
        simp only [resolveConflict, hu, hs, Bool.false_eq_true, if_false, if_true]
        exact safe_error w _ _ (by decide) rfl
      | false =>
        simp only [resolveConflict, hu, hs, Bool.false_eq_true, if_false]
        refine ⟨(fun h => nomatch h), (fun h => nomatch h), fun _ => ?_⟩
        refine ⟨rfl, localB, rfl, Or.inl ?_⟩
        rw [List.drop_left]
        exact List.mem_singleton.mpr rfl
  | useCloud =>
    cases hi : w.failImport with
    | true =>
      simp only [resolveConflict, hi, if_true]
      exact safe_error w w _ (by decide) rfl
    | false =>
      cases hs : w.failUpdateSettings with
      | true =>
        simp only [resolveConflict, hi, hs, Bool.false_eq_true, if_false, importDataW, if_true]
        exact safe_error w _ _ (by decide) rfl
      | false =>
        simp only [resolveConflict, hi, hs, Bool.false_eq_true, if_false, importDataW]
        refine ⟨(fun h => nomatch h), (fun h => nomatch h), fun _ => ?_⟩
        refine ⟨rfl, cloudB, rfl, Or.inr ?_⟩
        rw [List.drop_left]
        exact List.mem_singleton.mpr rfl
  | merge =>
    cases hi : w.failImport with
    | true =>
      simp only [resolveConflict, hi, if_true]
      exact safe_error w w _ (by decide) rfl
    | false =>
      cases hb : w.failBuild with
      | true =>
        simp only [resolveConflict, hi, hb, Bool.false_eq_true, if_false, importDataW, if_true]
        exact safe_error w _ _ (by decide) rfl
      | false =>
        cases hu : w.failUpload with
        | true =>
          simp only [resolveConflict, hi, hb, hu, Bool.false_eq_true, if_false, importDataW,
            if_true]
          exact safe_error w _ _ (by decide) rfl
        | false =>
          cases hs : w.failUpdateSettings with
          | true =>
            simp only [resolveConflict, hi, hb, hu, hs, Bool.false_eq_true, if_false,
              importDataW, if_true]
            exact safe_error w _ _ (by decide) rfl
          | false =>
            simp only [resolveConflict, hi, hb, hu, hs, Bool.false_eq_true, if_false,
              importDataW]
            refine ⟨(fun h => nomatch h), (fun h => nomatch h), fun _ => ?_⟩
            refine ⟨rfl, _, rfl, Or.inl ?_⟩
            rw [List.drop_left]
            exact List.mem_singleton.mpr rfl

/-- C7: the checksum is a pure, order-sensitive function of only the
per-stat projections `(id, name, updatedAt)` and per-entry projections
`(id, value, updatedAt)`: two datasets whose projections agree pointwise in
collection order yield equal checksums; in particular changing only an
entry's `date` or its `statId` leaves the checksum unchanged. -/
theorem C7_checksum_projection :
    (∀ (s1 e1 s2 e2 : _),
      s1.map statProj = s2.map statProj → e1.map entryProj = e2.map entryProj →
        generateChecksum s1 e1 = generateChecksum s2 e2) ∧
    (∀ (stats : List Stat) (entries : List Entry) (d : String) (sid : Nat),
      generateChecksum stats (entries.map (fun e => { e with date := d, statId := sid })) =
        generateChecksum stats entries) := by
  have key : ∀ (s1 e1 s2 e2 : _),
      s1.map statProj = s2.map statProj → e1.map entryProj = e2.map entryProj →
        generateChecksum s1 e1 = generateChecksum s2 e2 := by
    intro s1 e1 s2 e2 hs he
    have hs' := congrArg (List.map statProjJsonP) hs
    have he' := congrArg (List.map entryProjJsonP) he
    simp only [List.map_map, Function.comp_def] at hs' he'
    unfold generateChecksum checksumText
    rw [hs', he']
  refine ⟨key, fun stats entries d sid => key _ _ _ _ rfl ?_⟩
  rw [List.map_map]
  rfl

/-- Witness for C7: concrete singleton datasets that differ only in fields
outside the projections (color, order, date, statId, createdAt) satisfy the
hypotheses and get equal checksums. -/
theorem C7_checksum_projection_witness :
    ([demoStatA].map statProj = [demoStatA'].map statProj) ∧
    ([demoEntryA].map entryProj = [demoEntryA'].map entryProj) ∧
    generateChecksum [demoStatA] [demoEntryA] = generateChecksum [demoStatA'] [demoEntryA'] :=
  ⟨rfl, rfl, C7_checksum_projection.1 _ _ _ _ rfl rfl⟩

/-- C1: with a remote file present, a remote checksum differing from the
local checksum, and a watermark differing from the remote checksum, a run
without a conflict resolution reports `conflict` and attaches both the
local and the cloud backup, mutating nothing. -/
theorem C1_conflict_reported (w : World) (fid : String) (cloudB : BackupFile)
    (h1 : w.failGetSettings = false) (h2 : w.failBuild = false)
    (h3 : w.failFind = false) (h4 : w.failDownload = false)
    (hrem : w.remote = some (fid, cloudB))
    (hne : cloudB.metadata.checksum ≠
      (buildBackup w.stats w.entries (isoString w.now)).metadata.checksum)
    (hwm : w.settings.lastSyncChecksum ≠ some cloudB.metadata.checksum) :
    performSync w none =
      ({ status := .conflict, message := "Both local and cloud data have changed",
         cloudBackup := some cloudB,
         localBackup := some (buildBackup w.stats w.entries (isoString w.now)) }, w) := by
  simp [performSync, h1, h2, h3, h4, hrem, hne, hwm]

/-- C5 (amended): with a remote file whose checksum equals the local
checksum, the run reports `no-changes`, performs no upload, leaves the
watermark unchanged, and updates the last-sync time and the cached drive
file id (the claim said the last-sync time only; see
`C5_no_changes_counterexample`). -/
theorem C5_no_changes (w : World) (fid : String) (cloudB : BackupFile)
    (res : Option ConflictResolution)
    (h1 : w.failGetSettings = false) (h2 : w.failBuild = false)
    (h3 : w.failFind = false) (h4 : w.failDownload = false)
    (h5 : w.failUpdateSettings = false)
    (hrem : w.remote = some (fid, cloudB))
    (heq : cloudB.metadata.checksum =
      (buildBackup w.stats w.entries (isoString w.now)).metadata.checksum) :
    performSync w res =
      ({ status := .noChanges, message := "Data is already in sync" },
       { w with settings := { w.settings with
           driveFileId := some fid, lastSyncTime := some (isoString w.now) } }) := by
  simp [performSync, h1, h2, h3, h4, h5, hrem, heq]

theorem C5_no_changes_witness :
    (performSync demoWorld5 none).1.status = SyncStatus.noChanges ∧
    (performSync demoWorld5 none).2.settings.lastSyncChecksum =
      demoWorld5.settings.lastSyncChecksum ∧
    (performSync demoWorld5 none).2.uploads = demoWorld5.uploads := by
  rw [C5_no_changes demoWorld5 "f1" (buildBackup [demoStatA] [] "y") none
    rfl rfl rfl rfl rfl rfl rfl]
  exact ⟨rfl, rfl, rfl⟩


set_option maxRecDepth 100000 in
/-- Witness for C1: in `demoWorld1` only the remote changed since the last
sync (the watermark equals the local checksum), and the run still reports
a full conflict. -/
theorem C1_conflict_reported_witness :
    demoWorld1.settings.lastSyncChecksum =
      some (buildBackup demoWorld1.stats demoWorld1.entries
        (isoString demoWorld1.now)).metadata.checksum ∧
    (performSync demoWorld1 none).1.status = SyncStatus.conflict :=
  ⟨by decide,
   by rw [C1_conflict_reported demoWorld1 "f1" (buildBackup [demoStatA, demoStatB] [] "x")
       rfl rfl rfl rfl rfl (by decide) (by decide)]⟩

set_option maxRecDepth 100000 in
/-- Counterexample for C5: on `demoWorld5` the no-changes branch reports
`no-changes` but the final settings differ from the original settings in
more than the last-sync time (the drive file id is also written), so
"updates the last-sync-time only" is false as stated. -/
theorem C5_no_changes_counterexample :
    (performSync demoWorld5 none).1.status = SyncStatus.noChanges ∧
    (performSync demoWorld5 none).2.settings ≠
      { demoWorld5.settings with
        lastSyncTime := (performSync demoWorld5 none).2.settings.lastSyncTime } := by
  exact ⟨by decide, by decide⟩


/-- C3: every sync run satisfies the safety contract — any step's thrown
exception is caught and surfaces as an `error`-status result with a
message and an unchanged watermark, and the watermark is (re)written only
by a successful run, to the checksum of a backup uploaded, or of the
envelope whose dataset was imported, during that run. -/
theorem C3_error_safety (w : World) (res : Option ConflictResolution) :
    SafeOutcome w (performSync w res) := by
  cases h1 : w.failGetSettings with
  | true =>
    simp only [performSync, h1, if_true]
    exact safe_error w w _ (by decide) rfl
  | false =>
  cases h2 : w.failBuild with
  | true =>
    simp only [performSync, h1, h2, Bool.false_eq_true, if_false, if_true]
    exact safe_error w w _ (by decide) rfl
  | false =>
  cases h3 : w.failFind with
  | true =>
    simp only [performSync, h1, h2, h3, Bool.false_eq_true, if_false, if_true]
    exact safe_error w w _ (by decide) rfl
  | false =>
  simp only [performSync, h1, h2, h3, Bool.false_eq_true, if_false]
  cases hrem : w.remote with
  | none =>
    cases h4 : w.failUpload with
    | true =>
      simp only [h4, if_true]
      exact safe_error w w _ (by decide) rfl
    | false =>
      cases h5 : w.failUpdateSettings with
      | true =>
        simp only [h4, h5, Bool.false_eq_true, if_false, if_true]
        exact safe_error w _ _ (by decide) rfl
      | false =>
        simp only [h4, h5, Bool.false_eq_true, if_false]
        refine ⟨(fun h => nomatch h), (fun h => nomatch h), fun _ => ?_⟩
        refine ⟨rfl, _, rfl, Or.inl ?_⟩
        rw [List.drop_left]
        exact List.mem_singleton.mpr rfl
  | some p =>
    obtain ⟨fid, cloudB⟩ := p
    cases h4 : w.failDownload with
    | true =>
      simp only [h4, if_true]
      exact safe_error w w _ (by decide) rfl
    | false =>
      simp only [h4, Bool.false_eq_true, if_false]
      by_cases heq : cloudB.metadata.checksum =
          (buildBackup w.stats w.entries (isoString w.now)).metadata.checksum
      · simp only [heq, if_true, if_pos rfl]
        cases h5 : w.failUpdateSettings with
        | true =>
          simp only [h5, if_true]
          exact safe_error w w _ (by decide) rfl
        | false =>
          simp only [h5, Bool.false_eq_true, if_false]
          exact safe_unchanged w _ _ (fun h => nomatch h) rfl
      · simp only [if_neg heq]
        by_cases hwm : w.settings.lastSyncChecksum = some cloudB.metadata.checksum
        · simp only [if_pos hwm]
          cases h5 : w.failUpload with
          | true =>
            simp only [h5, if_true]
            exact safe_error w w _ (by decide) rfl
          | false =>
            cases h6 : w.failUpdateSettings with
            | true =>
              simp only [h5, h6, Bool.false_eq_true, if_false, if_true]
              exact safe_error w _ _ (by decide) rfl
            | false =>
              simp only [h5, h6, Bool.false_eq_true, if_false]
              refine ⟨(fun h => nomatch h), (fun h => nomatch h), fun _ => ?_⟩
              refine ⟨rfl, _, rfl, Or.inl ?_⟩
              rw [List.drop_left]
              exact List.mem_singleton.mpr rfl
        · simp only [if_neg hwm]
          cases res with
          | none => exact safe_unchanged w _ _ (fun h => nomatch h) rfl
          | some r => exact safe_resolve w fid _ cloudB r

set_option maxRecDepth 100000 in
/-- Witness for C3: a run whose upload throws reports `error` and leaves
the stored watermark untouched. -/
theorem C3_error_safety_witness :
    (performSync demoWorldF none).1.status = SyncStatus.error ∧
    (performSync demoWorldF none).2.settings.lastSyncChecksum =
      demoWorldF.settings.lastSyncChecksum :=
  ⟨by decide, (C3_error_safety demoWorldF none).1 (by decide)⟩

/-- C4: resolving a conflict with `use-cloud` replaces the entire local
dataset with the cloud backup's stats and entries in one clear-then-insert
transaction (timestamps reset by the store's creating hook), preserves the
cloud records' identifiers, discards every local-only record, and sets the
watermark to the remote checksum; if the import throws, nothing changes. -/
theorem C4_use_cloud_replaces (w : World) (fid : String) (localB cloudB : BackupFile) :
    (w.failImport = false → w.failUpdateSettings = false →
      resolveConflict w fid localB cloudB .useCloud =
        ({ status := .success, message := "Cloud data restored to device" },
         { w with
           stats := cloudB.data.stats.map (hookStat w.now),
           entries := cloudB.data.entries.map (hookEntry w.now),
           imports := w.imports ++ [(cloudB.data.stats, cloudB.data.entries)],
           settings := { w.settings with
             lastSyncTime := some (isoString w.now),
             lastSyncChecksum := some cloudB.metadata.checksum } })) ∧
    ((cloudB.data.stats.map (hookStat w.now)).map Stat.id = cloudB.data.stats.map Stat.id) ∧
    ((cloudB.data.entries.map (hookEntry w.now)).map Entry.id =
      cloudB.data.entries.map Entry.id) ∧
    (∀ s ∈ w.stats, (∀ c ∈ cloudB.data.stats, c.id ≠ s.id) →
      ∀ t ∈ cloudB.data.stats.map (hookStat w.now), t.id ≠ s.id) ∧
    (∀ e ∈ w.entries, (∀ c ∈ cloudB.data.entries, c.id ≠ e.id) →
      ∀ t ∈ cloudB.data.entries.map (hookEntry w.now), t.id ≠ e.id) ∧
    (w.failImport = true →
      resolveConflict w fid localB cloudB .useCloud = (errorResult "Import failed", w)) := by
  refine ⟨?_, ?_, ?_, ?_, ?_, ?_⟩
  · intro hi hu
    simp only [resolveConflict, hi, hu, Bool.false_eq_true, if_false, importDataW,
      importParsed_flat]
  · simp [List.map_map, Function.comp_def, hookStat]
  · simp [List.map_map, Function.comp_def, hookEntry]
  · intro s hs hnone t ht
    obtain ⟨c, hc, rfl⟩ := List.mem_map.mp ht
    exact hnone c hc
  · intro e he hnone t ht
    obtain ⟨c, hc, rfl⟩ := List.mem_map.mp ht
    exact hnone c hc
  · intro hi
    simp only [resolveConflict, hi, if_true]

/-- Witness for C4: the concrete `use-cloud` resolution in `demoWorld10`
keeps the cloud record's id and records the remote checksum as the
watermark. -/
theorem C4_use_cloud_replaces_witness :
    (resolveConflict demoWorld10 "f1" demoLocalB demoCloudB .useCloud).2.stats.map Stat.id =
      [some 7] ∧
    (resolveConflict demoWorld10 "f1" demoLocalB demoCloudB
        .useCloud).2.settings.lastSyncChecksum = some demoCloudB.metadata.checksum := by
  rw [(C4_use_cloud_replaces demoWorld10 "f1" demoLocalB demoCloudB).1 rfl rfl]
  exact ⟨rfl, rfl⟩

set_option maxRecDepth 1000000 in
/-- C10: every record stored by `importData` has `createdAt` and
`updatedAt` equal to the import time — the creating hook overwrites the
timestamps carried in the imported data — and consequently, after the
concrete `use-cloud` resolution in `demoWorld10`, the checksum of the
resulting local dataset differs from the recorded watermark (the remote
checksum). -/
theorem C10_import_resets_timestamps :
    (∀ (root : Json) (now : Nat), ∀ s ∈ (importParsed root now).1,
        s.createdAt = Dt.mem now ∧ s.updatedAt = Dt.mem now) ∧
    (∀ (root : Json) (now : Nat), ∀ e ∈ (importParsed root now).2,
        e.createdAt = Dt.mem now ∧ e.updatedAt = Dt.mem now) ∧
    ((resolveConflict demoWorld10 "f1" demoLocalB demoCloudB
        .useCloud).2.settings.lastSyncChecksum = some demoCloudB.metadata.checksum ∧
      generateChecksum (resolveConflict demoWorld10 "f1" demoLocalB demoCloudB .useCloud).2.stats
          (resolveConflict demoWorld10 "f1" demoLocalB demoCloudB .useCloud).2.entries ≠
        demoCloudB.metadata.checksum) := by
  refine ⟨?_, ?_, ?_, ?_⟩
  · intro root now s hs
    obtain ⟨j, _, rfl⟩ := List.mem_map.mp hs
    exact ⟨rfl, rfl⟩
  · intro root now e he
    obtain ⟨j, _, rfl⟩ := List.mem_map.mp he
    exact ⟨rfl, rfl⟩
  · decide
  · decide

/-- Witness for C10: the single record imported at time 5 in a concrete
run has both timestamps equal to time 5. -/
theorem C10_import_resets_timestamps_witness :
    hookStat 5 (looseStat (statToJson demoCloudStat)) ∈
      (importParsed (flatExport [demoCloudStat] [] "x") 5).1 ∧
    (hookStat 5 (looseStat (statToJson demoCloudStat))).createdAt = Dt.mem 5 ∧
    (hookStat 5 (looseStat (statToJson demoCloudStat))).updatedAt = Dt.mem 5 :=
  ⟨by decide,
   C10_import_resets_timestamps.1 (flatExport [demoCloudStat] [] "x") 5
     (hookStat 5 (looseStat (statToJson demoCloudStat))) (by decide)⟩

set_option maxRecDepth 1000000 in
/-- Counterexample for C9: manual export produces a flat
`{stats, entries, exportedAt}` object with no `metadata` field, unlike the
sync envelope, and feeding the sync envelope to `importData` silently
imports no records at all. -/
theorem C9_counterexample :
    (jField (flatExport [demoStatA] [] (isoString 0)) "metadata").isNone = true ∧
    (jField (backupToJson (buildBackup [demoStatA] [] (isoString 0))) "metadata").isSome =
      true ∧
    (importParsed (backupToJson (buildBackup [demoStatA] [] (isoString 0))) 0).1 = [] ∧
    [demoStatA] ≠ ([] : List Stat) := by
  refine ⟨by decide, by decide, by decide, by decide⟩

/-- C9 (amended): manual export and import share the flat
`{stats, entries, exportedAt}` shape (not the sync envelope): importing an
export restores the records (ids preserved, timestamps reset by the store
hooks), and import never reads a `metadata`/checksum field — adding one
changes nothing. -/
theorem C9_flat_export_import (stats : List Stat) (entries : List Entry) (t : String)
    (now : Nat) (x : Json) (fs : List (String × Json)) :
    importParsed (flatExport stats entries t) now =
      (stats.map (hookStat now), entries.map (hookEntry now)) ∧
    importParsed (Json.obj (("metadata", x) :: fs)) now = importParsed (Json.obj fs) now := by
  refine ⟨importParsed_flat stats entries t now, ?_⟩
  simp only [importParsed, jField, jGet]
  rw [if_neg (by decide), if_neg (by decide)]

/-- C2: `mergeData` returns an identifier-unique, most-recent-wins union
of the two collections — every merged record carries a nonzero identifier,
identifiers are pairwise distinct, an identifier appears in the result iff
it appears in the cloud or the local collection, an identifier present in
both keeps the record with the strictly later `updatedAt` (ties keep the
cloud record), and a one-sided identifier keeps its unique record. -/
theorem C2_merge_semantics (localB cloudB : BackupFile) (nowIso : String)
    (hcs : (truthyIds (fun s : Stat => s.id) cloudB.data.stats).Nodup)
    (hls : (truthyIds (fun s : Stat => s.id) localB.data.stats).Nodup)
    (hce : (truthyIds (fun e : Entry => e.id) cloudB.data.entries).Nodup)
    (hle : (truthyIds (fun e : Entry => e.id) localB.data.entries).Nodup) :
    (∀ s ∈ (mergeData localB cloudB nowIso).data.stats, ∃ k, s.id = some k ∧ k ≠ 0) ∧
    (∀ e ∈ (mergeData localB cloudB nowIso).data.entries, ∃ k, e.id = some k ∧ k ≠ 0) ∧
    ((mergeData localB cloudB nowIso).data.stats.map Stat.id).Nodup ∧
    ((mergeData localB cloudB nowIso).data.entries.map Entry.id).Nodup ∧
    (∀ k, k ≠ 0 →
      ((∃ s ∈ (mergeData localB cloudB nowIso).data.stats, s.id = some k) ↔
        (∃ c ∈ cloudB.data.stats, c.id = some k) ∨
          (∃ l ∈ localB.data.stats, l.id = some k))) ∧
    (∀ k, k ≠ 0 →
      ((∃ e ∈ (mergeData localB cloudB nowIso).data.entries, e.id = some k) ↔
        (∃ c ∈ cloudB.data.entries, c.id = some k) ∨
          (∃ l ∈ localB.data.entries, l.id = some k))) ∧
    (∀ k c l, k ≠ 0 → c ∈ cloudB.data.stats → c.id = some k →
      l ∈ localB.data.stats → l.id = some k →
      (if dtAfter l.updatedAt c.updatedAt then l else c) ∈
        (mergeData localB cloudB nowIso).data.stats) ∧
    (∀ k c l, k ≠ 0 → c ∈ cloudB.data.entries → c.id = some k →
      l ∈ localB.data.entries → l.id = some k →
      (if dtAfter l.updatedAt c.updatedAt then l else c) ∈
        (mergeData localB cloudB nowIso).data.entries) ∧
    (∀ k c, k ≠ 0 → c ∈ cloudB.data.stats → c.id = some k →
      (∀ l ∈ localB.data.stats, l.id ≠ some k) →
      c ∈ (mergeData localB cloudB nowIso).data.stats) ∧
    (∀ k c, k ≠ 0 → c ∈ cloudB.data.entries → c.id = some k →
      (∀ l ∈ localB.data.entries, l.id ≠ some k) →
      c ∈ (mergeData localB cloudB nowIso).data.entries) ∧
    (∀ k l, k ≠ 0 → l ∈ localB.data.stats → l.id = some k →
      (∀ c ∈ cloudB.data.stats, c.id ≠ some k) →
      l ∈ (mergeData localB cloudB nowIso).data.stats) ∧
    (∀ k l, k ≠ 0 → l ∈ localB.data.entries → l.id = some k →
      (∀ c ∈ cloudB.data.entries, c.id ≠ some k) →
      l ∈ (mergeData localB cloudB nowIso).data.entries) := by
  obtain ⟨sA, sB, sC, sD, sE, sF⟩ := mergeMap_spec (fun s : Stat => s.id)
    (fun s => s.updatedAt) cloudB.data.stats localB.data.stats hcs hls
  obtain ⟨eA, eB, eC, eD, eE, eF⟩ := mergeMap_spec (fun e : Entry => e.id)
    (fun e => e.updatedAt) cloudB.data.entries localB.data.entries hce hle
  rw [show (mergeData localB cloudB nowIso).data.stats =
      (jsMergeLocal (fun s : Stat => s.id) (fun s => s.updatedAt)
        (jsSetAll (fun s : Stat => s.id) [] cloudB.data.stats) localB.data.stats).map
        Prod.snd from rfl,
    show (mergeData localB cloudB nowIso).data.entries =
      (jsMergeLocal (fun e : Entry => e.id) (fun e => e.updatedAt)
        (jsSetAll (fun e : Entry => e.id) [] cloudB.data.entries) localB.data.entries).map
        Prod.snd from rfl]
  exact ⟨sA, eA, sB, eB, sC, eC, sD, eD, sE, eE, sF, eF⟩

/-- Witness for C2: merging a local record (updated later) against a cloud
record with the same id keeps the local one. -/
theorem C2_merge_semantics_witness :
    (truthyIds (fun s : Stat => s.id) [demoStatOld, demoStatB]).Nodup ∧
    (if dtAfter demoStatA.updatedAt demoStatOld.updatedAt then demoStatA else demoStatOld) ∈
      (mergeData (buildBackup [demoStatA] [] "t1")
        (buildBackup [demoStatOld, demoStatB] [] "t2") "t3").data.stats :=
  ⟨by decide,
   (C2_merge_semantics (buildBackup [demoStatA] [] "t1")
      (buildBackup [demoStatOld, demoStatB] [] "t2") "t3"
      (by decide) (by decide) (by decide) (by decide)).2.2.2.2.2.2.1
     1 demoStatOld demoStatA (by decide) (by decide) (by decide) (by decide) (by decide)⟩


theorem escChar_digit : ∀ k, k < 10 → escChar (Nat.digitChar k) = [Nat.digitChar k] := by
  decide

theorem escChar_digit_mod (n : Nat) :
    escChar (Nat.digitChar (n % 10)) = [Nat.digitChar (n % 10)] :=
  escChar_digit _ (Nat.mod_lt _ (by omega))

theorem pad4_safe (n : Nat) : ∀ c ∈ pad4l n, escChar c = [c] := by
  intro c hc
  simp only [pad4l, List.mem_cons, List.not_mem_nil, or_false] at hc
  rcases hc with h | h | h | h <;> (subst h; exact escChar_digit_mod _)

theorem pad3_safe (n : Nat) : ∀ c ∈ pad3l n, escChar c = [c] := by
  intro c hc
  simp only [pad3l, List.mem_cons, List.not_mem_nil, or_false] at hc
  rcases hc with h | h | h <;> (subst h; exact escChar_digit_mod _)

theorem pad2_safe (n : Nat) : ∀ c ∈ pad2l n, escChar c = [c] := by
  intro c hc
  simp only [pad2l, List.mem_cons, List.not_mem_nil, or_false] at hc
  rcases hc with h | h <;> (subst h; exact escChar_digit_mod _)

theorem iso_escape_free (ms : Nat) : ∀ c ∈ isoChars ms, escChar c = [c] := by
  unfold isoChars
  simp only [List.forall_mem_append]
  repeat' constructor
  all_goals
    first
      | exact pad4_safe _
      | exact pad3_safe _
      | exact pad2_safe _
      | (intro c hc
         simp only [List.mem_singleton] at hc
         subst hc
         decide)

theorem flatten_escape_free (l : List Char) (h : ∀ c ∈ l, escChar c = [c]) :
    (l.map escChar).flatten = l := by
  induction l with
  | nil => rfl
  | cons c l ih =>
    rw [List.map_cons, List.flatten_cons, h c (List.mem_cons_self _ _),
      ih fun c' h' => h c' (List.mem_cons_of_mem _ h')]
    rfl

theorem jsonQuote_iso (ms : Nat) :
    jsonQuote (isoString ms) = ⟨'"' :: isoChars ms ++ ['"']⟩ := by
  unfold jsonQuote isoString
  rw [show (String.mk (isoChars ms)).data = isoChars ms from rfl,
    flatten_escape_free _ (iso_escape_free ms)]

theorem dtJson_dtWire (d : Dt) : dtJson (dtWire d) = dtJson d := by
  cases d with
  | mem ms => simp only [dtWire, dtJson, jsonQuote_iso]
  | wire s => rfl
  | nan => rfl

theorem checksum_wire (stats : List Stat) (entries : List Entry) :
    generateChecksum (stats.map wireStat) (entries.map wireEntry) =
      generateChecksum stats entries := by
  have hf : (fun s => statProjJsonP (statProj (wireStat s))) =
      (fun s => statProjJsonP (statProj s)) := by
    funext s
    rcases s with ⟨id, name, color, order, ca, ua⟩
    simp only [statProjJsonP, statProj, wireStat, dtJson_dtWire]
  have hg : (fun e => entryProjJsonP (entryProj (wireEntry e))) =
      (fun e => entryProjJsonP (entryProj e)) := by
    funext e
    rcases e with ⟨id, statId, value, date, ca, ua⟩
    simp only [entryProjJsonP, entryProj, wireEntry, dtJson_dtWire]
  unfold generateChecksum checksumText
  rw [List.map_map, List.map_map]
  simp only [Function.comp_def]
  rw [hf, hg]

theorem decodeDate_dtToJson (d : Dt) : decodeDate (some (dtToJson d)) = dtWire d := by
  cases d <;> rfl

theorem decodeStat_statToJson (s : Stat) : decodeStat (statToJson s) = some (wireStat s) := by
  rcases s with ⟨id, name, color, order, ca, ua⟩
  rcases id with _ | i <;>
    simp [statToJson, decodeStat, jField, jGet, asStr, asInt, asNat_ofNat, asNat_none,
      decodeDate_dtToJson, wireStat]

theorem decodeEntry_entryToJson (e : Entry) :
    decodeEntry (entryToJson e) = some (wireEntry e) := by
  rcases e with ⟨id, statId, value, date, ca, ua⟩
  rcases id with _ | i <;>
    simp [entryToJson, decodeEntry, jField, jGet, asStr, asInt, asNat_ofNat, asNat_none,
      decodeDate_dtToJson, wireEntry]

theorem mapM_encode_decode {β γ : Type} (f : β → Json) (g : Json → Option γ) (w : β → γ)
    (h : ∀ x, g (f x) = some (w x)) (xs : List β) :
    (xs.map f).mapM g = some (xs.map w) := by
  induction xs with
  | nil => rfl
  | cons x xs ih =>
    rw [List.map_cons, List.map_cons, List.mapM_cons, h, ih]
    rfl

theorem decodeMeta_metaToJson (md : BackupMetadata) : decodeMeta (metaToJson md) = some md := by
  rcases md with ⟨v, ea, av, ec, sc, ck⟩
  simp [metaToJson, decodeMeta, jField, jGet, asStr, asNat_ofNat]

theorem decodeBackup_backupToJson (b : BackupFile) :
    decodeBackup (backupToJson b) =
      some { metadata := b.metadata,
             data := { stats := b.data.stats.map wireStat,
                       entries := b.data.entries.map wireEntry } } := by
  have h1 := mapM_encode_decode statToJson decodeStat wireStat decodeStat_statToJson
    b.data.stats
  have h2 := mapM_encode_decode entryToJson decodeEntry wireEntry decodeEntry_entryToJson
    b.data.entries
  unfold List.mapM at h1 h2
  simp [decodeBackup, backupToJson, jField, jGet, decodeMeta_metaToJson, h1, h2]

theorem reDt_dtWire_ok {d : Dt} (h : dtOkB d = true) : reDt (dtWire d) = d := by
  rcases d with ms | s | _
  · rw [dtWire, reDt, parseIso_isoString ms (by simpa [dtOkB] using h)]
  · simp [dtOkB] at h
  · simp [dtOkB] at h

theorem rehydrate_wireStat {s : Stat} (h1 : dtOkB s.createdAt = true)
    (h2 : dtOkB s.updatedAt = true) : rehydrateStat (wireStat s) = s := by
  rcases s with ⟨id, name, color, order, ca, ua⟩
  simp only [wireStat, rehydrateStat] at *
  rw [reDt_dtWire_ok h1, reDt_dtWire_ok h2]

theorem rehydrate_wireEntry {e : Entry} (h1 : dtOkB e.createdAt = true)
    (h2 : dtOkB e.updatedAt = true) : rehydrateEntry (wireEntry e) = e := by
  rcases e with ⟨id, statId, value, date, ca, ua⟩
  simp only [wireEntry, rehydrateEntry] at *
  rw [reDt_dtWire_ok h1, reDt_dtWire_ok h2]

/-- C8: serializing a built backup file to JSON and parsing it back yields
the same metadata and the same records with dates encoded as ISO-8601
strings; re-hydrating those strings with `new Date` restores the original
records (for in-memory dates before the year 10000), and recomputing
`generateChecksum` on the parsed data reproduces the envelope's
`metadata.checksum` exactly. -/
theorem C8_backup_roundtrip (stats : List Stat) (entries : List Entry) (nowIso : String)
    (hs : ∀ s ∈ stats, dtOkB s.createdAt = true ∧ dtOkB s.updatedAt = true)
    (he : ∀ e ∈ entries, dtOkB e.createdAt = true ∧ dtOkB e.updatedAt = true) :
    decodeBackup (backupToJson (buildBackup stats entries nowIso)) =
      some { metadata := (buildBackup stats entries nowIso).metadata,
             data := { stats := stats.map wireStat, entries := entries.map wireEntry } } ∧
    generateChecksum (stats.map wireStat) (entries.map wireEntry) =
      (buildBackup stats entries nowIso).metadata.checksum ∧
    (stats.map wireStat).map rehydrateStat = stats ∧
    (entries.map wireEntry).map rehydrateEntry = entries := by
  refine ⟨decodeBackup_backupToJson _, checksum_wire stats entries, ?_, ?_⟩
  · rw [List.map_map]
    have : ∀ s ∈ stats, (rehydrateStat ∘ wireStat) s = id s := by
      intro s hmem
      exact rehydrate_wireStat (hs s hmem).1 (hs s hmem).2
    rw [List.map_congr_left this, List.map_id]
  · rw [List.map_map]
    have : ∀ e ∈ entries, (rehydrateEntry ∘ wireEntry) e = id e := by
      intro e hmem
      exact rehydrate_wireEntry (he e hmem).1 (he e hmem).2
    rw [List.map_congr_left this, List.map_id]

/-- Witness for C8: a concrete singleton dataset round-trips and its
re-computed checksum matches the envelope checksum. -/
theorem C8_backup_roundtrip_witness :
    (∀ s ∈ [demoStatA], dtOkB s.createdAt = true ∧ dtOkB s.updatedAt = true) ∧
    ([demoStatA].map wireStat).map rehydrateStat = [demoStatA] ∧
    generateChecksum ([demoStatA].map wireStat) ([demoEntryA].map wireEntry) =
      (buildBackup [demoStatA] [demoEntryA] "t").metadata.checksum :=
  ⟨by decide,
   (C8_backup_roundtrip [demoStatA] [demoEntryA] "t" (by decide) (by decide)).2.2.1,
   (C8_backup_roundtrip [demoStatA] [demoEntryA] "t" (by decide) (by decide)).2.1⟩

end Feels
